import Mathlib

/-!
Formal model of the CDP data-engineering repository.

Each Python module relevant to the verified claims is shallowly embedded:
Python dicts become insertion-ordered association lists, MongoDB collections
become Lean lists of documents, datetimes become epoch instants (integer
microseconds in the format normalizer, rationals elsewhere; always UTC at
rest), float arithmetic is modelled over the reals (scores) or rationals
(confidences), and fallible code returns `Except`/`Option`.  State-passing
replaces the async mutation of MongoDB.
-/

namespace CDP

/-- Python dict with string keys, modelled as an insertion-ordered
association list (first binding of a key is the authoritative one). -/
abbrev Dict (α : Type) := List (String × α)

/-- Lookup in a dict: `d.get(k)` / `k in d`. -/
def dget {α : Type} : Dict α → String → Option α
  | [], _ => none
  | kv :: rest, k => if kv.1 = k then some kv.2 else dget rest k

/-- Python `d[k] = v`: overwrite the binding in place, else append. -/
def dset {α : Type} : Dict α → String → α → Dict α
  | [], k, v => [(k, v)]
  | kv :: rest, k, v => if kv.1 = k then (k, v) :: rest else kv :: dset rest k v

/-- Python `d.update(other)`: fold `d[k] = v` over `other` in order. -/
def dictUpdate {α : Type} (d other : Dict α) : Dict α :=
  other.foldl (fun acc kv => dset acc kv.1 kv.2) d

/-- Python slicing `s[:n]` (by code points). -/
def pyTake (s : String) (n : ℕ) : String := ⟨s.data.take n⟩

/-- Python `s.endswith(suffix)`. -/
def pyEndsWith (s suffix : String) : Bool :=
  suffix.data.reverse.isPrefixOf s.data.reverse

/-- Python `str.lower()` (per code point; faithful for the ASCII names in
scope). -/
def pyLower (s : String) : String := ⟨s.data.map Char.toLower⟩

/-- An element of an event's identifier list: models the Python dict with keys
`"type"` and `"value"`.  The code reads both with `.get(..., "")`, so a missing
key is modelled as the empty string. -/
structure Ident where
  idType : String
  idValue : String
deriving DecidableEq, Repr

/-- An event dict as consumed by the processing layer (the fields the embedded
functions read).  Timestamps are modelled as rational epoch instants standing
for the ISO-8601 strings the pipeline carries; a missing or falsy value is
`none`. -/
structure Event where
  source : Option String
  timestamp : Option ℚ
  personal_info : Dict String
  consent : Dict Bool
  identifiers : List Ident
deriving DecidableEq, Repr

namespace PB

/-- The `interaction_summary` sub-document of a profile. -/
structure Summary where
  total_interactions : Nat
  per_source_count : Dict Nat
  last_interaction_at : Option ℚ
deriving DecidableEq, Repr

/-- The fresh summary used by `profile.setdefault("interaction_summary", ...)`. -/
def emptySummary : Summary := ⟨0, [], none⟩

/-- A profile document in the `profiles` collection, with the fields
`ProfileBuilder` reads and writes.  `version` is `none` when the stored
document has no `"version"` field (as with documents written by
`IdentityResolver._create_profile`); the builder reads it with
`profile.get("version", 0)`.  `engagement_score` is `none` when absent and is
read with `profile.get("engagement_score", 0.0)`. -/
structure Profile where
  profile_id : String
  version : Option Nat
  personal_info : Dict String
  consent : Dict Bool
  interaction_summary : Option Summary
  engagement_score : Option ℝ
  segments : List String
  identifiers : Dict String
  updated_at : Option ℚ

/-- Source-of-truth authority for contact info (`CONTACT_INFO_AUTHORITY`). -/
def CONTACT_INFO_AUTHORITY : String := "crm"

/-- ProfileBuilder._apply_contact_info: CRM-sourced personal info overwrites;
consent is merged most-restrictively (`existing.get(key, True) and incoming`).
Truthiness of `event.get("personal_info")` is emptiness of the dict. -/
def _apply_contact_info (profile : Profile) (event : Event) : Profile :=
  let profile :=
    if event.source.getD "" = CONTACT_INFO_AUTHORITY ∧ event.personal_info ≠ [] then
      { profile with personal_info := dictUpdate profile.personal_info event.personal_info }
    else profile
  let merged := event.consent.foldl
    (fun acc kv => dset acc kv.1 ((dget acc kv.1).getD true && kv.2)) profile.consent
  { profile with consent := merged }

/-- ProfileBuilder._update_interaction_summary.  `event.get("timestamp") or
now` falls back to `now` when the timestamp is missing (or falsy). -/
def _update_interaction_summary (profile : Profile) (event : Event) (now : ℚ) : Profile :=
  let s := profile.interaction_summary.getD emptySummary
  let s := { s with total_interactions := s.total_interactions + 1 }
  let src := event.source.getD "unknown"
  let counts := dset s.per_source_count src ((dget s.per_source_count src).getD 0 + 1)
  let s := { s with per_source_count := counts }
  let s := { s with last_interaction_at := some (event.timestamp.getD now) }
  { profile with interaction_summary := some s }

/-- Engagement scoring weight `RECENCY_WEIGHT`. -/
def RECENCY_WEIGHT : ℝ := 0.55
/-- Engagement scoring weight `FREQUENCY_WEIGHT`. -/
def FREQUENCY_WEIGHT : ℝ := 0.45
/-- Engagement scoring constant `RECENCY_HALF_LIFE_DAYS`. -/
def RECENCY_HALF_LIFE_DAYS : ℝ := 14.0

open Classical in
/-- Python `round(x, 2)` over the reals: round to the nearest multiple of
1/100, ties to the even multiple (banker's rounding). -/
noncomputable def pyRound2 (x : ℝ) : ℝ :=
  let y := x * 100
  let n : ℤ := ⌊y⌋
  let r : ℤ :=
    if y - (n : ℝ) < 1 / 2 then n
    else if (1 : ℝ) / 2 < y - (n : ℝ) then n + 1
    else if Even n then n else n + 1
  (r : ℝ) / 100

/-- ProfileBuilder._update_scores: recency decays exponentially from the last
interaction, frequency is capped event volume; the rounded blend is stored on
the profile.  ISO-string timestamps are modelled as rational instants, so
`datetime.fromisoformat(last_str)` is the identity and
`(now - last_dt).total_seconds() / 86400` is rational subtraction. -/
noncomputable def _update_scores (profile : Profile) (_event : Event) (now : ℚ) : Profile :=
  let s := profile.interaction_summary.getD emptySummary
  let recency : ℝ :=
    match s.last_interaction_at with
    | some last =>
        let daysAgo : ℝ := max (((now : ℝ) - (last : ℝ)) / 86400) 0
        100 * Real.exp (-0.693 * daysAgo / RECENCY_HALF_LIFE_DAYS)
    | none => 0
  let frequency : ℝ := min 100 ((s.total_interactions : ℝ) * 2.5)
  let score := pyRound2 (RECENCY_WEIGHT * recency + FREQUENCY_WEIGHT * frequency)
  { profile with engagement_score := some score }

/-- Segment thresholds `SEGMENT_THRESHOLDS` in dict insertion order. -/
def SEGMENT_THRESHOLDS : List (String × ℝ × ℝ) :=
  [("highly_engaged", 70, 100),
   ("moderately_engaged", 40, 70),
   ("at_risk", 15, 40),
   ("dormant", 0, 15)]

open Classical in
/-- ProfileBuilder._update_segments: a profile is in every segment whose
half-open range `[low, high)` contains its engagement score. -/
noncomputable def _update_segments (profile : Profile) : Profile :=
  let score : ℝ := profile.engagement_score.getD 0
  let segs := (SEGMENT_THRESHOLDS.filter (fun nt => decide (nt.2.1 ≤ score ∧ score < nt.2.2))).map (·.1)
  { profile with segments := segs }

/-- ProfileBuilder._merge_identifiers: add each incoming `(type, value)` with
both components non-empty when no identifier of that type is present yet. -/
def _merge_identifiers (profile : Profile) (newIdentifiers : List Ident) : Profile :=
  let existing := newIdentifiers.foldl
    (fun ex i =>
      if i.idType ≠ "" ∧ i.idValue ≠ "" ∧ dget ex i.idType = none then
        dset ex i.idType i.idValue
      else ex)
    profile.identifiers
  { profile with identifiers := existing }

/-- The accumulator step of `_merge_identifiers` (named for the proofs). -/
def mergeStep (ex : Dict String) (i : Ident) : Dict String :=
  if i.idType ≠ "" ∧ i.idValue ≠ "" ∧ dget ex i.idType = none then
    dset ex i.idType i.idValue
  else ex

/-- First value in an identifier list that `_merge_identifiers` would accept
for a given type. -/
def firstNewValue (t : String) : List Ident → Option String
  | [] => none
  | i :: rest =>
    if i.idType = t ∧ i.idType ≠ "" ∧ i.idValue ≠ "" then some i.idValue
    else firstNewValue t rest

/-- The body of one `update_profile` attempt after the version read: the five
section updates followed by the version bump and `updated_at` stamp. -/
noncomputable def buildUpdated (profile : Profile) (event : Event) (now : ℚ) (v : Nat) : Profile :=
  let p := _apply_contact_info profile event
  let p := _update_interaction_summary p event now
  let p := _update_scores p event now
  let p := _update_segments p
  let p := _merge_identifiers p event.identifiers
  { p with version := some (v + 1), updated_at := some now }

/-- Mongo filter `{"profile_id": pid, "version": v}`: an equality match on
`version` requires the field to be present with that value. -/
def docMatches (pid : String) (v : Nat) (p : Profile) : Bool :=
  p.profile_id == pid && p.version == some v

/-- find_one on the `profiles` collection by `profile_id`. -/
def findOne (store : List Profile) (pid : String) : Option Profile :=
  store.find? (fun p => p.profile_id == pid)

/-- replace_one with filter `{"profile_id": pid, "version": v}`: replace the
first matching document; the second component is `modified_count`. -/
def replaceFirst (store : List Profile) (pid : String) (v : Nat) (newP : Profile) :
    List Profile × Nat :=
  match store with
  | [] => ([], 0)
  | p :: rest =>
    if docMatches pid v p then (newP :: rest, 1)
    else
      let r := replaceFirst rest pid v newP
      (p :: r.1, r.2)

/-- Ghost record of one optimistic-locking attempt: the document read, the
replacement written, the store at write time (after any concurrent
interference), the store after the write, and whether the CAS succeeded. -/
structure Attempt where
  readDoc : Profile
  written : Profile
  storeAtWrite : List Profile
  storeAfter : List Profile
  casOk : Bool

/-- Outcome of `update_profile`: the returned profile, the `ValueError` for a
missing profile, or `OptimisticLockError` after exhausting the retries. -/
inductive Outcome
  | ok (p : Profile)
  | notFound (pid : String)
  | lockError

/-- Result of a full `update_profile` run: outcome, final store, and the ghost
trace of attempts. -/
structure RunResult where
  outcome : Outcome
  store : List Profile
  attempts : List Attempt

/-- ProfileBuilder default `max_retries`. -/
def MAX_RETRIES : Nat := 3

/-- The retry loop of `ProfileBuilder.update_profile`.  `interf` supplies the
concurrent modification of the store that may happen between each read and its
predicated write (the empty list means no interference). -/
noncomputable def updateLoop (pid : String) (event : Event) (now : ℚ) :
    Nat → List (List Profile → List Profile) → List Profile → RunResult
  | 0, _, store => ⟨.lockError, store, []⟩
  | n + 1, interf, store =>
    match findOne store pid with
    | none => ⟨.notFound pid, store, []⟩
    | some profile =>
      let v := profile.version.getD 0
      let newP := buildUpdated profile event now v
      let store1 := (interf.headD id) store
      let wr := replaceFirst store1 pid v newP
      let att : Attempt := ⟨profile, newP, store1, wr.1, wr.2 == 1⟩
      if wr.2 = 1 then ⟨.ok newP, wr.1, [att]⟩
      else
        let r := updateLoop pid event now n interf.tail wr.1
        ⟨r.outcome, r.store, att :: r.attempts⟩

/-- ProfileBuilder.update_profile with the default `max_retries = 3`. -/
noncomputable def update_profile (pid : String) (event : Event) (now : ℚ)
    (interf : List (List Profile → List Profile)) (store : List Profile) : RunResult :=
  updateLoop pid event now MAX_RETRIES interf store

/-- Whether a run returned a profile (no exception). -/
noncomputable def okSucceeded (r : RunResult) : Bool :=
  match r.outcome with
  | .ok _ => true
  | _ => false

/-- The returned profile's stored identifier value for a type (`none` when the
run did not return a profile); used to state concrete facts about runs. -/
noncomputable def okIdentifier (r : RunResult) (t : String) : Option String :=
  match r.outcome with
  | .ok p => dget p.identifiers t
  | _ => none

/-- Concrete stored profile: version 0, one identifier `email ↦ "a"`. -/
def exProfileC1 : Profile := ⟨"p1", some 0, [], [], none, none, [], [("email", "a")], none⟩

/-- Concrete event carrying the identifier `email ↦ "b"`. -/
def exEventC1 : Event := ⟨none, none, [], [], [⟨"email", "b"⟩]⟩

/-- Concrete profile carrying engagement score 32, as produced by the worked
example (4 interactions, last one 14 days ago). -/
noncomputable def exProfileScore32 : Profile :=
  ⟨"p-seg", none, [], [], none, some 32, [], [], none⟩

end PB

namespace CM

/-- The channel list `CHANNELS` of `consent_manager.py`. -/
def CHANNELS : List String := ["email", "whatsapp", "push", "sms", "analytics", "profiling"]

/-- ConsentManager.CURRENT_TERMS_VERSION. -/
def CURRENT_TERMS_VERSION : String := "v2.1"

/-- ChannelConsentEntry: consent state for one channel. -/
structure Entry where
  channel : String
  consented : Bool
  legal_basis : String
  updated_at : ℚ
  terms_version : String
deriving DecidableEq, Repr

/-- ChannelConsent: the per-student consent document. -/
structure ChannelConsent where
  student_id : String
  channels : Dict Entry
  created_at : ℚ
  last_modified : ℚ
deriving DecidableEq, Repr

/-- One document of the `consent_audit_log` collection as written by
`update_consent`. -/
structure AuditEntry where
  student_id : String
  channel : String
  old_value : Option Bool
  new_value : Bool
  legal_basis : String
  terms_version : String
  source : String
  timestamp : ℚ
deriving DecidableEq, Repr

/-- The mutable state of the consent manager: the `consents` collection and
the `consent_audit_log` collection (insert order preserved). -/
structure State where
  consents : List ChannelConsent
  audit : List AuditEntry
deriving DecidableEq, Repr

/-- find_one on a list of consent records by `student_id` (first match). -/
def findRec : List ChannelConsent → String → Option ChannelConsent
  | [], _ => none
  | r :: rest, sid => if r.student_id = sid then some r else findRec rest sid

/-- find_one on `consents` by `student_id`. -/
def findRecord (st : State) (sid : String) : Option ChannelConsent :=
  findRec st.consents sid

/-- ConsentManager.get_consent: the stored record, or a fresh default. -/
def get_consent (st : State) (sid : String) (now : ℚ) : ChannelConsent :=
  (findRecord st sid).getD ⟨sid, [], now, now⟩

/-- The `update_one(..., upsert=True)` of `update_consent`: set
`channels.{channel}` and `last_modified` on the first matching record, or
insert a fresh record (`$setOnInsert` supplies `student_id`/`created_at`). -/
def upsertRecords (l : List ChannelConsent) (sid channel : String) (e : Entry) (now : ℚ) :
    List ChannelConsent :=
  match l with
  | [] => [⟨sid, [(channel, e)], now, now⟩]
  | r :: rest =>
    if r.student_id = sid then
      { r with channels := dset r.channels channel e, last_modified := now } :: rest
    else r :: upsertRecords rest sid channel e now

/-- ConsentManager.update_consent: validate the channel, upsert the entry and
append an audit document; `ValueError` for an unknown channel. -/
def update_consent (st : State) (sid channel : String) (consented : Bool)
    (legal_basis source : String) (now : ℚ) : Except String State :=
  if channel ∈ CHANNELS then
    let existing := get_consent st sid now
    let old_value := (dget existing.channels channel).map (·.consented)
    let newEntry : Entry := ⟨channel, consented, legal_basis, now, CURRENT_TERMS_VERSION⟩
    let auditE : AuditEntry :=
      ⟨sid, channel, old_value, consented, legal_basis, CURRENT_TERMS_VERSION, source, now⟩
    .ok ⟨upsertRecords st.consents sid channel newEntry now, st.audit ++ [auditE]⟩
  else .error ("Unknown channel: " ++ channel)

/-- ConsentManager.check_consent: `bool(entry and entry.get("consented"))`. -/
def check_consent (st : State) (sid channel : String) : Bool :=
  match findRecord st sid with
  | none => false
  | some r => ((dget r.channels channel).map (·.consented)).getD false

/-- delete_one on `consents` by `student_id`: remove the first match. -/
def deleteOne (l : List ChannelConsent) (sid : String) : List ChannelConsent :=
  match l with
  | [] => []
  | r :: rest => if r.student_id = sid then rest else r :: deleteOne rest sid

/-- The for-loop of `merge_consent` over the remaining channels; `primary` and
`secondary` are the records read once before the loop. -/
def mergeLoop (pid : String) (primary secondary : ChannelConsent) (now : ℚ) :
    List String → State → Except String State
  | [], st => .ok st
  | c :: cs, st =>
    let p_entry := dget primary.channels c
    let s_entry := dget secondary.channels c
    let p_consented := (p_entry.map (·.consented)).getD false
    let s_consented := (s_entry.map (·.consented)).getD false
    let merged := p_consented && s_consented
    if p_entry = none ∨ p_entry.map (·.consented) ≠ some merged then
      match update_consent st pid c merged "legitimate_interest" "api" now with
      | .ok st1 => mergeLoop pid primary secondary now cs st1
      | .error e => .error e
    else mergeLoop pid primary secondary now cs st

/-- ConsentManager.merge_consent: most-restrictive merge onto the primary,
then delete the secondary record. -/
def merge_consent (st : State) (primary_id secondary_id : String) (now : ℚ) :
    Except String State :=
  let primary := get_consent st primary_id now
  let secondary := get_consent st secondary_id now
  match mergeLoop primary_id primary secondary now CHANNELS st with
  | .ok st1 => .ok ⟨deleteOne st1.consents secondary_id, st1.audit⟩
  | .error e => .error e

/-- The stored entry for a student and channel (`none` when either is
absent); pure observation used to state the merge properties. -/
def entryIn (l : List ChannelConsent) (sid c : String) : Option Entry :=
  (findRec l sid).bind (fun r => dget r.channels c)

/-- The most-restrictive merged value for one channel, from the two records
read at the start of `merge_consent` (absent counts as not consented). -/
def mergedVal (primary secondary : ChannelConsent) (c : String) : Bool :=
  ((dget primary.channels c).map (·.consented)).getD false
    && ((dget secondary.channels c).map (·.consented)).getD false

/-- Channels for which `merge_consent` invokes `update_consent`: no entry on
the primary, or a consented value differing from the merged value. -/
def mergeTrigger (primary secondary : ChannelConsent) (c : String) : Bool :=
  decide (dget primary.channels c = none
    ∨ (dget primary.channels c).map (·.consented) ≠ some (mergedVal primary secondary c))

/-- The audit document produced when `merge_consent` updates a channel. -/
def mergeAuditEntry (pid : String) (primary secondary : ChannelConsent) (now : ℚ)
    (c : String) : AuditEntry :=
  ⟨pid, c, (dget primary.channels c).map (·.consented), mergedVal primary secondary c,
    "legitimate_interest", CURRENT_TERMS_VERSION, "api", now⟩

/-- A consent entry with `consented = false` for a channel. -/
def falseEntry (c : String) : Entry := ⟨c, false, "consent", 0, "v1.0"⟩

/-- Concrete state: student `p` holds explicit `consented = false` entries for
all six channels; student `s` has no record. -/
def exStateC5 : State :=
  ⟨[⟨"p",
      [("email", falseEntry "email"), ("whatsapp", falseEntry "whatsapp"),
       ("push", falseEntry "push"), ("sms", falseEntry "sms"),
       ("analytics", falseEntry "analytics"), ("profiling", falseEntry "profiling")],
      0, 0⟩], []⟩

end CM

namespace SP

/-- The `VALID_SOURCES` frozenset of `stream_processor.py`. -/
def VALID_SOURCES : List String := ["website", "app", "crm", "email", "whatsapp"]

/-- A message sent to `cdp.dlq` by `_send_to_dlq`: the original message value
and the full error text. -/
structure DlqMsg where
  original : Event
  error : String
deriving DecidableEq, Repr

/-- A message sent to `cdp.bigquery.staging` on success. -/
structure StagedMsg where
  profile_id : String
  event : Event
  profile_snapshot : PB.Profile

/-- Observable effects of processing one message: staged messages, DLQ
messages, the `reason` labels recorded on the DLQ counter (truncated to 120
characters), and the `source` labels recorded on the processed counter.
`_process_one` catches every exception, so it is a total function: nothing is
re-raised into the batch. -/
structure ProcOut where
  staged : List StagedMsg
  dlq : List DlqMsg
  dlqReasonLabels : List String
  processedSources : List String

/-- StreamProcessor._send_to_dlq: the DLQ document carries the full reason;
the `cdp_dlq_total` counter is labelled with `reason[:120]`. -/
def _send_to_dlq (original : Event) (reason : String) : DlqMsg × String :=
  (⟨original, reason⟩, pyTake reason 120)

/-- StreamProcessor._process_one.  `pipeline` abstracts the body of the `try`
block after the source check (identity resolution, profile update and the
staging-topic send); an exception anywhere in the `try` block is caught and
routed to the DLQ with `str(exc)`. -/
def _process_one (pipeline : Event → Except String (String × PB.Profile)) (msg : Event) :
    ProcOut :=
  let source := msg.source.getD "unknown"
  if source ∉ VALID_SOURCES then
    let d := _send_to_dlq msg ("Unknown event source: " ++ source)
    ⟨[], [d.1], [d.2], []⟩
  else
    match pipeline msg with
    | .ok pr => ⟨[⟨pr.1, msg, pr.2⟩], [], [], [source]⟩
    | .error exc =>
      let d := _send_to_dlq msg exc
      ⟨[], [d.1], [d.2], []⟩

/-- A 130-character error text, longer than the 120-character label cut. -/
def exLongErr : String := ⟨List.replicate 130 'x'⟩

/-- A concrete message with the invalid source `sms`. -/
def exMsgSms : Event := ⟨some "sms", none, [], [], []⟩

/-- A concrete message with the valid source `app`. -/
def exMsgApp : Event := ⟨some "app", none, [], [], []⟩

end SP

namespace IR

/-- The auto-merge threshold `CONFIDENCE_AUTO_MERGE`. -/
def CONFIDENCE_AUTO_MERGE : ℚ := 0.85

/-- The `DETERMINISTIC_FIELDS` tuple. -/
def DETERMINISTIC_FIELDS : List String :=
  ["email", "phone", "device_id", "session_id", "salesforce_id"]

/-- Shape of the stored `identifiers` field: `_create_profile` writes it as an
object mapping type to value, while other writers store it as an array of
`{type, value}` sub-documents.  Mongo array operators behave differently on
the two shapes, so the embedding keeps the distinction. -/
inductive IdsField
  | dict (d : Dict String)
  | array (l : List Ident)
deriving DecidableEq, Repr

/-- A document of the `profiles` collection as read by the resolver.
`identifiers_list` is read with `.get("identifiers_list", [])`, so a missing
field is the empty list. -/
structure IRDoc where
  profile_id : String
  personal_info : Dict String
  identifiers : IdsField
  identifiers_list : List Ident
  consent : Dict Bool
  created_at : ℚ
deriving DecidableEq, Repr

/-- Documents of the `identity_audit_log` collection. -/
inductive AuditEv
  | create (profile_id : String) (timestamp : ℚ)
  | review_flag (candidate_id : String) (confidence : ℚ) (event_snapshot : Event) (timestamp : ℚ)
  | merge (primary_id secondary_id : String) (timestamp : ℚ)
deriving DecidableEq, Repr

/-- Mongo query `{f"identifiers.{field}": value}`: equality on the sub-field
for an object-shaped `identifiers`; on an array of `{type, value}` elements the
dotted path would look for an element field named `field` (never present for
the deterministic fields), so arrays never match. -/
def findByIdentifier (store : List IRDoc) (field v : String) : Option IRDoc :=
  store.find? (fun d =>
    match d.identifiers with
    | .dict dd => dget dd field == some v
    | .array _ => false)

/-- IdentityResolver._deterministic_match: first exact hit on a deterministic
identifier wins; idents that find nothing fall through to the next. -/
def _deterministic_match (store : List IRDoc) : List Ident → Option String
  | [] => none
  | i :: rest =>
    if i.idType ∈ DETERMINISTIC_FIELDS ∧ i.idValue ≠ "" then
      match findByIdentifier store i.idType i.idValue with
      | some d => some d.profile_id
      | none => _deterministic_match store rest
    else _deterministic_match store rest

/-- The event-side value set `{i["value"] for i in identifiers if i.get("value")}`. -/
def idValuesOf (identifiers : List Ident) : Finset String :=
  ((identifiers.filter (fun i => i.idValue != "")).map (·.idValue)).toFinset

/-- The candidate-side value set built from `identifiers_list`. -/
def candIdsOf (d : IRDoc) : Finset String :=
  ((d.identifiers_list.filter (fun e => e.idValue != "")).map (·.idValue)).toFinset

/-- The overlap ratio `len(a & b) / max(len(a | b), 1)` (Jaccard index). -/
def jaccard (a b : Finset String) : ℚ :=
  ((a ∩ b).card : ℚ) / ((max (a ∪ b).card 1 : ℕ) : ℚ)

/-- Reading `personal_info.get("name", "")`. -/
def nameOf (pi : Dict String) : String := (dget pi "name").getD ""

/-- Per-candidate confidence `0.6 * name_score + 0.4 * overlap`.  `sim`
abstracts `difflib.SequenceMatcher(None, a, b).ratio()`; it is applied to the
two lowercased names exactly as in the code. -/
def confidenceOf (sim : String → String → ℚ) (ename : String) (vals : Finset String)
    (d : IRDoc) : ℚ :=
  0.6 * sim (pyLower ename) (pyLower (nameOf d.personal_info))
    + 0.4 * jaccard vals (candIdsOf d)

/-- Mongo query `{"identifiers": {"$elemMatch": {"value": {"$in": vals}}}}`.
`$elemMatch` only matches array-valued fields, hence object-shaped
`identifiers` never qualify. -/
def elemMatchCandidates (store : List IRDoc) (vals : Finset String) : List IRDoc :=
  store.filter (fun d =>
    match d.identifiers with
    | .array l => l.any (fun e => decide (e.idValue ∈ vals))
    | .dict _ => false)

/-- The `async for` best-candidate fold: strictly greater confidence replaces
the incumbent, so the first maximum wins ties. -/
def bestOf (sim : String → String → ℚ) (ename : String) (vals : Finset String)
    (docs : List IRDoc) : Option (String × ℚ) :=
  docs.foldl
    (fun best d =>
      let conf := confidenceOf sim ename vals d
      match best with
      | none => some (d.profile_id, conf)
      | some b => if b.2 < conf then some (d.profile_id, conf) else best)
    none

/-- IdentityResolver._probabilistic_match. -/
def _probabilistic_match (sim : String → String → ℚ) (store : List IRDoc)
    (personal_info : Dict String) (identifiers : List Ident) : Option (String × ℚ) :=
  let vals := idValuesOf identifiers
  if nameOf personal_info = "" ∨ vals = ∅ then none
  else bestOf sim (nameOf personal_info) vals (elemMatchCandidates store vals)

/-- IdentityResolver._create_profile: the inserted document (identifiers as a
dict comprehension, `identifiers_list` as the raw list).  `newId` stands for
the generated uuid4. -/
def _create_profile (e : Event) (newId : String) (now : ℚ) : IRDoc :=
  ⟨newId, e.personal_info,
    .dict (e.identifiers.foldl (fun d i => dset d i.idType i.idValue) []),
    e.identifiers, e.consent, now⟩

/-- Result of `resolve`: the returned profile_id, the profiles collection
afterwards, and the audit-log documents inserted by this call. -/
structure ResolveOut where
  pid : String
  store : List IRDoc
  audit : List AuditEv
deriving DecidableEq, Repr

/-- IdentityResolver.resolve. -/
def resolve (sim : String → String → ℚ) (store : List IRDoc) (e : Event)
    (newId : String) (now : ℚ) : ResolveOut :=
  match _deterministic_match store e.identifiers with
  | some pid => ⟨pid, store, []⟩
  | none =>
    match _probabilistic_match sim store e.personal_info e.identifiers with
    | some pr =>
      if CONFIDENCE_AUTO_MERGE ≤ pr.2 then ⟨pr.1, store, []⟩
      else
        ⟨newId, store ++ [_create_profile e newId now],
          [.review_flag pr.1 pr.2 e now, .create newId now]⟩
    | none => ⟨newId, store ++ [_create_profile e newId now], [.create newId now]⟩

/-- Concrete probabilistic-match candidate: array-shaped `identifiers` (so the
`$elemMatch` query can see it) and an `identifiers_list` of two values. -/
def exCandC3 : IRDoc :=
  ⟨"cand-1", [("name", "Ada Lovelace")], .array [⟨"email", "a@x"⟩],
    [⟨"email", "a@x"⟩, ⟨"phone", "p1"⟩], [], 0⟩

/-- Store holding just the candidate. -/
def exStoreC3 : List IRDoc := [exCandC3]

/-- Concrete event with the same name and one shared identifier value. -/
def exEventC3 : Event := ⟨none, none, [("name", "Ada Lovelace")], [], [⟨"email", "a@x"⟩]⟩

end IR

namespace FN

/-- Named timezone offsets `_COMMON_TZ_OFFSETS` in dict insertion order. -/
def _COMMON_TZ_OFFSETS : List (String × String) :=
  [("CET", "+01:00"), ("CEST", "+02:00"), ("EST", "-05:00"), ("PST", "-08:00"), ("IST", "+05:30")]

/-- ASCII whitespace stripped by `str.strip()`. -/
def isPyWs (c : Char) : Bool :=
  c == ' ' || c == '\t' || c == '\n' || c == '\r' || c == '\x0b' || c == '\x0c'

/-- Python `str.strip()` (whitespace from both ends). -/
def pyStrip (s : String) : String :=
  ⟨((s.data.dropWhile isPyWs).reverse.dropWhile isPyWs).reverse⟩

/-- Python `str.replace(pat, rep)`: left-to-right, non-overlapping, the
replacement text is not rescanned.  The fuel argument (initially the string
length, an upper bound on the number of scan steps) keeps the recursion
structural. -/
def replaceList (pat rep : List Char) : ℕ → List Char → List Char
  | 0, l => l
  | _ + 1, [] => []
  | n + 1, c :: rest =>
    if pat ≠ [] ∧ pat.isPrefixOf (c :: rest) then
      rep ++ replaceList pat rep n (rest.drop (pat.length - 1))
    else c :: replaceList pat rep n rest

/-- Python `str.replace` on strings. -/
def pyReplace (s pat rep : String) : String :=
  ⟨replaceList pat.data rep.data s.data.length s.data⟩

/-- The replacement loop `for abbr, offset in _COMMON_TZ_OFFSETS.items()`. -/
def applyTzReplacements (s : String) : String :=
  _COMMON_TZ_OFFSETS.foldl (fun acc pr => pyReplace acc pr.1 pr.2) s

/-- Decimal value of an ASCII digit. -/
def digitVal (c : Char) : Option ℕ :=
  if '0' ≤ c ∧ c ≤ '9' then some (c.toNat - '0'.toNat) else none

/-- Two-digit component. -/
def d2v (a b : Char) : Option ℕ := do
  let x ← digitVal a
  let y ← digitVal b
  pure (10 * x + y)

/-- Four-digit component. -/
def d4v (a b c d : Char) : Option ℕ := do
  let x ← d2v a b
  let y ← d2v c d
  pure (100 * x + y)

/-- Value of a run of decimal digits. -/
def digitsVal (l : List Char) : ℕ :=
  l.foldl (fun acc c => acc * 10 + (digitVal c).getD 0) 0

/-- Microseconds from the digit run after `.` or `,`: at least one digit and
digits only; the first six digits count, further digits are validated and
discarded (CPython truncates to microsecond resolution). -/
def parseMicro (l : List Char) : Option ℕ :=
  if l ≠ [] ∧ l.all (fun c => (digitVal c).isSome) then
    let toParse := min 6 l.length
    some (digitsVal (l.take toParse) * 10 ^ (6 - toParse))
  else none

/-- End-of-time-string handling of `_parse_hh_mm_ss_ff`: either nothing is
left, or a `.`/`,` introduces the fractional component; any other trailing
character is a `ValueError`. -/
def parseAfter (hh mm ss : ℕ) : List Char → Option (ℕ × ℕ × ℕ × ℕ)
  | [] => some (hh, mm, ss, 0)
  | c :: ds =>
    if c = '.' ∨ c = ',' then (parseMicro ds).map (fun f => (hh, mm, ss, f))
    else none

/-- The `HH[:MM[:SS]][{.,}fff]` grammar of CPython's `_parse_hh_mm_ss_ff`,
restricted to the colon-separated shape used throughout this pipeline.  The
whole string must be consumed. -/
def parseHMS (l : List Char) : Option (ℕ × ℕ × ℕ × ℕ) :=
  match l with
  | h1 :: h2 :: rest =>
    match d2v h1 h2 with
    | none => none
    | some hh =>
      match rest with
      | ':' :: m1 :: m2 :: rest2 =>
        match d2v m1 m2 with
        | none => none
        | some mm =>
          match rest2 with
          | ':' :: s1 :: s2 :: rest3 =>
            match d2v s1 s2 with
            | none => none
            | some ss => parseAfter hh mm ss rest3
          | _ => parseAfter hh mm 0 rest2
      | _ => parseAfter hh 0 0 rest
  | _ => none

/-- Position where the timezone part begins, mirroring
`tstr.find('-') + 1 or tstr.find('+') + 1 or tstr.find('Z') + 1 or
tstr.find('z') + 1`. -/
def tzPos (l : List Char) : Option ℕ :=
  (l.findIdx? (fun c => c == '-')) <|> (l.findIdx? (fun c => c == '+')) <|>
    (l.findIdx? (fun c => c == 'Z')) <|> (l.findIdx? (fun c => c == 'z'))

/-- Offset of the timezone string after the sign character.  Lengths 0, 1 and
3 are malformed; otherwise the `hh[:mm[:ss]]` grammar applies and
`timezone(timedelta(...))` enforces a strict one-day bound. -/
def tzOffsetOf (sign : Char) (tzstr : List Char) : Option ℤ :=
  if tzstr.length = 0 ∨ tzstr.length = 1 ∨ tzstr.length = 3 then none
  else
    match parseHMS tzstr with
    | none => none
    | some t =>
      let mag : ℤ := ((t.1 * 3600 + t.2.1 * 60 + t.2.2.1) * 1000000 + t.2.2.2 : ℕ)
      let off : ℤ := if sign = '-' then -mag else mag
      if -86400000000 < off ∧ off < 86400000000 then some off else none

/-- Time-of-day and offset parsing of `_parse_isoformat_time`: split at the
first timezone character, parse the clock part strictly (so a stray character
such as a space before the offset is rejected), then the offset; a trailing
`Z`/`z` is UTC. -/
def parseTimePart (tstr : List Char) : Option ((ℕ × ℕ × ℕ × ℕ) × Option ℤ) :=
  match tzPos tstr with
  | none => (parseHMS tstr).map (fun t => (t, none))
  | some i =>
    match parseHMS (tstr.take i) with
    | none => none
    | some t =>
      let tzchar := (tstr.get? i).getD ' '
      let rest := tstr.drop (i + 1)
      if (tzchar = 'Z' ∨ tzchar = 'z') ∧ rest = [] then some (t, some 0)
      else
        match tzOffsetOf tzchar rest with
        | some off => some (t, some off)
        | none => none

/-- Gregorian leap year. -/
def isLeap (y : ℤ) : Bool := (y % 4 == 0 && y % 100 != 0) || y % 400 == 0

/-- Days in a month, as validated by the `datetime` constructor. -/
def daysInMonth (y : ℤ) (m : ℕ) : ℕ :=
  if m = 2 then (if isLeap y then 29 else 28)
  else if m = 4 ∨ m = 6 ∨ m = 9 ∨ m = 11 then 30 else 31

/-- Days from 1970-01-01 to the given civil date (Howard Hinnant's
`days_from_civil`; all dates in scope keep the intermediate values
non-negative). -/
def daysFromCivil (y : ℤ) (m d : ℕ) : ℤ :=
  let y2 : ℤ := if m ≤ 2 then y - 1 else y
  let era : ℤ := (if 0 ≤ y2 then y2 else y2 - 399) / 400
  let yoe : ℤ := y2 - era * 400
  let doy : ℤ := ((153 * ((m + 9) % 12) + 2) / 5 + d - 1 : ℕ)
  let doe : ℤ := yoe * 365 + yoe / 4 - yoe / 100 + doy
  era * 146097 + doe - 719468

/-- Microseconds from the epoch to a civil date-time read as a wall clock
(microseconds are the resolution of `datetime`). -/
def civilMicro (y : ℤ) (m d h mi s : ℕ) : ℤ :=
  (daysFromCivil y m d * 86400 + ((h * 3600 + mi * 60 + s : ℕ) : ℤ)) * 1000000

/-- A parsed `datetime`: wall-clock microseconds since the epoch in its own
zone, and the zone offset in microseconds (`none` for a naive value). -/
structure ParsedDT where
  naive : ℤ
  offsetMicro : Option ℤ
deriving DecidableEq, Repr

/-- The `YYYY-MM-DD` date part (the canonical form used by this pipeline;
CPython's further date shapes are out of scope). -/
def parseDatePart (l : List Char) : Option (ℕ × ℕ × ℕ) :=
  match l with
  | [y1, y2, y3, y4, c1, m1, m2, c2, d1, d2] =>
    if c1 = '-' ∧ c2 = '-' then do
      let y ← d4v y1 y2 y3 y4
      let m ← d2v m1 m2
      let d ← d2v d1 d2
      pure (y, m, d)
    else none
  | _ => none

/-- CPython `datetime.fromisoformat` on the `YYYY-MM-DD[sep]HH:MM:SS[±HH:MM]`
fragment: ten date characters, one arbitrary separator character, a strictly
parsed time, and constructor range validation. -/
def fromisoformat (s : String) : Option ParsedDT :=
  let l := s.data
  match parseDatePart (l.take 10) with
  | none => none
  | some ymd =>
    let y : ℤ := (ymd.1 : ℤ)
    let m := ymd.2.1
    let d := ymd.2.2
    if 1 ≤ ymd.1 ∧ 1 ≤ m ∧ m ≤ 12 ∧ 1 ≤ d ∧ d ≤ daysInMonth y m then
      match l.drop 10 with
      | [] => some ⟨civilMicro y m d 0 0 0, none⟩
      | _sep :: tstr =>
        if tstr = [] then none
        else
          match parseTimePart tstr with
          | none => none
          | some (t, off) =>
            if t.1 ≤ 23 ∧ t.2.1 ≤ 59 ∧ t.2.2.1 ≤ 59 then
              some ⟨civilMicro y m d t.1 t.2.1 t.2.2.1 + (t.2.2.2 : ℤ), off⟩
            else none
    else none

/-- A raw timestamp value as dispatched on by `_parse_timestamp`: a datetime
(wall-clock instant plus optional zone offset), a number (`int`/`float`,
rendered at microsecond resolution as `fromtimestamp` does), a string, or
anything else.  All instants are microseconds since the epoch. -/
inductive Raw
  | dt (naive : ℤ) (offsetMicro : Option ℤ)
  | num (posixMicro : ℤ)
  | str (s : String)
  | other
deriving DecidableEq, Repr

/-- FormatNormalizer._parse_timestamp, returning the UTC instant of the
resulting aware datetime.  Datetime inputs are converted (aware) or tagged UTC
(naive); numbers are POSIX seconds; strings are stripped, named zones are
substituted, then `fromisoformat` runs with a fallback to `now`. -/
def _parse_timestamp (raw : Raw) (now : ℤ) : ℤ :=
  match raw with
  | .dt naive off =>
    match off with
    | none => naive
    | some o => naive - o
  | .num x => x
  | .str s =>
    let cleaned := applyTzReplacements (pyStrip s)
    match fromisoformat cleaned with
    | none => now
    | some p =>
      match p.offsetMicro with
      | none => p.naive
      | some o => p.naive - o
  | .other => now

/-- Characters of a Python string, classified for the digit-coercion step:
`dec` is a Unicode `Nd` decimal digit (matched by `\d`, accepted by `int()`),
`digitNotDec` has `Numeric_Type=Digit` without being `Nd` (for example
U+00B2 SUPERSCRIPT TWO: `str.isdigit()` is true, `int()` raises), everything
else is `other`. -/
inductive PyChar
  | dec (d : ℕ)
  | digitNotDec
  | other
deriving DecidableEq, Repr

/-- A Python value inside the raw payload dict. -/
inductive PyVal
  | vNone
  | vStr (s : List PyChar)
  | vInt (n : ℤ)
  | vOther
deriving DecidableEq, Repr

/-- Python `str.isdigit()`: non-empty and every character a digit (decimal
digits and other digit-typed characters alike). -/
def pyIsdigit (s : List PyChar) : Bool :=
  !s.isEmpty && s.all (fun c => match c with | .dec _ => true | .digitNotDec => true | .other => false)

/-- Whether every character is a decimal (`Nd`) digit. -/
def allDec (s : List PyChar) : Bool :=
  s.all (fun c => match c with | .dec _ => true | _ => false)

/-- Python `int(s)` on a digit-shaped string: succeeds exactly on non-empty
runs of `Nd` digits; any other digit-typed character raises `ValueError`. -/
def pyIntOf (s : List PyChar) : Except String ℤ :=
  if !s.isEmpty && allDec s then
    .ok (s.foldl (fun acc c => match c with | .dec d => acc * 10 + (d : ℤ) | _ => acc) 0)
  else .error "invalid literal for int() with base 10"

/-- One entry of the `_coerce_types` loop.  `tsRender` abstracts
`str(_parse_timestamp(value))`, which is total (see `_parse_timestamp`). -/
def coerceVal (tsRender : PyVal → PyVal) (k : String) (v : PyVal) : Except String PyVal :=
  match v with
  | .vNone => .ok v
  | _ =>
    if pyEndsWith k "_at" ∨ k = "timestamp" then .ok (tsRender v)
    else
      match v with
      | .vStr s => if pyIsdigit s then (pyIntOf s).map .vInt else .ok v
      | _ => .ok v

/-- FormatNormalizer._coerce_types over the payload dict; the first raising
entry aborts the whole call (an uncaught `ValueError`). -/
def _coerce_types (tsRender : PyVal → PyVal) : Dict PyVal → Except String (Dict PyVal)
  | [] => .ok []
  | (k, v) :: rest =>
    match coerceVal tsRender k v with
    | .error e => .error e
    | .ok cv =>
      match _coerce_types tsRender rest with
      | .error e => .error e
      | .ok crest => .ok ((k, cv) :: crest)

end FN

end CDP

namespace CDP

theorem dget_dset {α : Type} (d : Dict α) (k : String) (v : α) (t : String) :
    dget (dset d k v) t = if k = t then some v else dget d t := by
  induction d with
  | nil => simp [dget, dset]
  | cons kv rest ih =>
    by_cases hk : kv.1 = k
    · subst hk
      by_cases h : kv.1 = t <;> simp [dget, dset, h]
    · by_cases h : kv.1 = t
      · have hkt : ¬k = t := fun e => hk (h.trans e.symm)
        have htk : ¬t = k := fun e => hkt e.symm
        simp [dget, dset, hk, h, hkt, htk]
      · simp [dget, dset, hk, h, ih]

namespace PB

theorem merge_identifiers_as_fold (p : Profile) (l : List Ident) :
    (_merge_identifiers p l).identifiers = l.foldl mergeStep p.identifiers := rfl

theorem dget_mergeFold (l : List Ident) (ex : Dict String) (t : String) :
    dget (l.foldl mergeStep ex) t =
      match dget ex t with
      | some w => some w
      | none => firstNewValue t l := by
  induction l generalizing ex with
  | nil => cases h : dget ex t <;> simp [firstNewValue, h]
  | cons i rest ih =>
    simp only [List.foldl_cons]
    rw [ih]
    by_cases hact : i.idType ≠ "" ∧ i.idValue ≠ "" ∧ dget ex i.idType = none
    · rw [show mergeStep ex i = dset ex i.idType i.idValue by simp [mergeStep, hact]]
      rw [dget_dset]
      by_cases ht : i.idType = t
      · subst ht
        rw [if_pos rfl, hact.2.2]
        simp [firstNewValue, hact.1, hact.2.1]
      · rw [if_neg ht]
        cases hex : dget ex t with
        | some w => rfl
        | none => simp [firstNewValue, ht]
    · rw [show mergeStep ex i = ex by simp [mergeStep, hact]]
      cases hex : dget ex t with
      | some w => rfl
      | none =>
        simp only []
        by_cases ht : i.idType = t
        · subst ht
          push_neg at hact
          by_cases h1 : i.idType = ""
          · simp [firstNewValue, h1]
          · by_cases h2 : i.idValue = ""
            · simp [firstNewValue, h2]
            · exact absurd hex (by simp [hact h1 h2])
        · simp [firstNewValue, ht]

theorem contact_identifiers (p : Profile) (e : Event) :
    (_apply_contact_info p e).identifiers = p.identifiers := by
  simp [_apply_contact_info, apply_ite (f := Profile.identifiers)]

theorem summary_identifiers (p : Profile) (e : Event) (now : ℚ) :
    (_update_interaction_summary p e now).identifiers = p.identifiers := rfl

theorem scores_identifiers (p : Profile) (e : Event) (now : ℚ) :
    (_update_scores p e now).identifiers = p.identifiers := rfl

theorem segments_identifiers (p : Profile) :
    (_update_segments p).identifiers = p.identifiers := rfl

theorem buildUpdated_version (p : Profile) (e : Event) (now : ℚ) (v : ℕ) :
    (buildUpdated p e now v).version = some (v + 1) := rfl

theorem buildUpdated_identifiers (p : Profile) (e : Event) (now : ℚ) (v : ℕ) :
    (buildUpdated p e now v).identifiers = e.identifiers.foldl mergeStep p.identifiers := by
  show (_merge_identifiers (_update_segments (_update_scores (_update_interaction_summary
      (_apply_contact_info p e) e now) e now)) e.identifiers).identifiers = _
  rw [merge_identifiers_as_fold, segments_identifiers, scores_identifiers, summary_identifiers,
    contact_identifiers]

theorem replaceFirst_spec (store : List Profile) (pid : String) (v : ℕ) (q : Profile) :
    ((replaceFirst store pid v q).2 = 1 →
      (∃ old ∈ store, docMatches pid v old = true) ∧ q ∈ (replaceFirst store pid v q).1)
    ∧ ((replaceFirst store pid v q).2 ≠ 1 → (replaceFirst store pid v q).1 = store) := by
  induction store with
  | nil => simp [replaceFirst]
  | cons p rest ih =>
    by_cases h : docMatches pid v p
    · constructor
      · intro h1
        exact ⟨⟨p, List.mem_cons_self p rest, h⟩, by simp [replaceFirst, h]⟩
      · intro hn
        exact absurd (by simp [replaceFirst, h]) hn
    · constructor
      · intro h1
        have h1x : (replaceFirst rest pid v q).2 = 1 := by
          simpa [replaceFirst, h] using h1
        obtain ⟨⟨old, hmem, hm⟩, hq⟩ := ih.1 h1x
        exact ⟨⟨old, List.mem_cons_of_mem p hmem, hm⟩, by simp [replaceFirst, h, hq]⟩
      · intro h1
        have h1x : (replaceFirst rest pid v q).2 ≠ 1 := by
          simpa [replaceFirst, h] using h1
        simp [replaceFirst, h, ih.2 h1x]

theorem updateLoop_spec (pid : String) (e : Event) (now : ℚ) :
    ∀ (fuel : ℕ) (interf : List (List Profile → List Profile)) (store : List Profile)
      (r : RunResult), r = updateLoop pid e now fuel interf store →
      (∀ a ∈ r.attempts,
          (a.casOk = true →
            (∃ old ∈ a.storeAtWrite, docMatches pid (a.readDoc.version.getD 0) old = true)
            ∧ a.written = buildUpdated a.readDoc e now (a.readDoc.version.getD 0)
            ∧ a.written ∈ a.storeAfter)
          ∧ (a.casOk = false → a.storeAfter = a.storeAtWrite))
      ∧ r.attempts.length ≤ fuel
      ∧ (r.outcome = .lockError → r.attempts.length = fuel ∧ ∀ a ∈ r.attempts, a.casOk = false)
      ∧ (∀ p, r.outcome = .ok p → ∃ a ∈ r.attempts, a.casOk = true ∧ a.written = p) := by
  intro fuel
  induction fuel with
  | zero =>
    intro interf store r hr
    subst hr
    simp [updateLoop]
  | succ n ih =>
    intro interf store r hr
    rw [show updateLoop pid e now (n + 1) interf store =
      (match findOne store pid with
        | none => ⟨.notFound pid, store, []⟩
        | some profile =>
          let v := profile.version.getD 0
          let newP := buildUpdated profile e now v
          let store1 := (interf.headD id) store
          let wr := replaceFirst store1 pid v newP
          let att : Attempt := ⟨profile, newP, store1, wr.1, wr.2 == 1⟩
          if wr.2 = 1 then ⟨.ok newP, wr.1, [att]⟩
          else
            let r2 := updateLoop pid e now n interf.tail wr.1
            ⟨r2.outcome, r2.store, att :: r2.attempts⟩ : RunResult) from rfl] at hr
    cases hf : findOne store pid with
    | none =>
      rw [hf] at hr
      subst hr
      simp
    | some profile =>
      rw [hf] at hr
      dsimp only at hr
      by_cases hw : (replaceFirst ((interf.headD id) store) pid (profile.version.getD 0)
          (buildUpdated profile e now (profile.version.getD 0))).2 = 1
      · rw [if_pos hw] at hr
        subst hr
        refine ⟨?_, by simp, by simp, ?_⟩
        · intro a ha
          rw [List.mem_singleton] at ha
          subst ha
          refine ⟨fun _ => ?_, fun hfalse => ?_⟩
          · obtain ⟨hold, hmemq⟩ := (replaceFirst_spec _ pid _ _).1 hw
            exact ⟨hold, rfl, hmemq⟩
          · simp only [beq_iff_eq] at hfalse
            exact absurd hw (by simpa using hfalse)
        · intro p hp
          simp only [Outcome.ok.injEq] at hp
          exact ⟨_, List.mem_singleton_self _, beq_iff_eq.mpr hw, hp⟩
      · rw [if_neg hw] at hr
        obtain ⟨ih1, ih2, ih3, ih4⟩ := ih interf.tail _ _ rfl
        subst hr
        refine ⟨?_, ?_, ?_, ?_⟩
        · intro a ha
          rcases List.mem_cons.mp ha with ha | ha
          · subst ha
            refine ⟨fun htrue => ?_, fun _ => ?_⟩
            · simp only [beq_iff_eq] at htrue
              exact absurd htrue hw
            · exact (replaceFirst_spec _ pid _ _).2 hw
          · exact ih1 a ha
        · simpa using Nat.succ_le_succ ih2
        · intro hl
          obtain ⟨hlen, hall⟩ := ih3 hl
          refine ⟨by simpa using hlen, ?_⟩
          intro a ha
          rcases List.mem_cons.mp ha with ha | ha
          · subst ha
            exact beq_eq_false_iff_ne.mpr hw
          · exact hall a ha
        · intro p hp
          obtain ⟨a, ha, hok, hwr⟩ := ih4 p hp
          exact ⟨a, List.mem_cons_of_mem _ ha, hok, hwr⟩

theorem firstNewValue_isSome {t : String} {l : List Ident} (i : Ident) (hi : i ∈ l)
    (ht : i.idType = t) (h1 : i.idType ≠ "") (h2 : i.idValue ≠ "") :
    ∃ w, firstNewValue t l = some w := by
  induction l with
  | nil => cases hi
  | cons j rest ih =>
    by_cases hc : j.idType = t ∧ j.idType ≠ "" ∧ j.idValue ≠ ""
    · refine ⟨j.idValue, ?_⟩
      rw [show firstNewValue t (j :: rest) =
        (if j.idType = t ∧ j.idType ≠ "" ∧ j.idValue ≠ "" then some j.idValue
          else firstNewValue t rest) from rfl, if_pos hc]
    · rcases List.mem_cons.mp hi with rfl | hi2
      · exact absurd ⟨ht, h1, h2⟩ hc
      · obtain ⟨w, hw⟩ := ih hi2
        exact ⟨w, by simp [firstNewValue, hc, hw]⟩

theorem contact_summary_unchanged (p : Profile) (e : Event) :
    (_apply_contact_info p e).interaction_summary = p.interaction_summary := by
  simp [_apply_contact_info, apply_ite (f := Profile.interaction_summary)]

theorem summary_last_at (p : Profile) (e : Event) (now : ℚ) :
    ((_update_interaction_summary p e now).interaction_summary.getD
        emptySummary).last_interaction_at = some (e.timestamp.getD now) := rfl

theorem summary_total_incr (p : Profile) (e : Event) (now : ℚ) :
    ((_update_interaction_summary p e now).interaction_summary.getD
        emptySummary).total_interactions =
      (p.interaction_summary.getD emptySummary).total_interactions + 1 := rfl

theorem scores_engagement (q : Profile) (e : Event) (now t : ℚ)
    (hlast : (q.interaction_summary.getD emptySummary).last_interaction_at = some t) :
    (_update_scores q e now).engagement_score =
      some (pyRound2 (RECENCY_WEIGHT *
          (100 * Real.exp (-0.693 * max (((now : ℝ) - (t : ℝ)) / 86400) 0 /
            RECENCY_HALF_LIFE_DAYS))
        + FREQUENCY_WEIGHT * min 100
            (((q.interaction_summary.getD emptySummary).total_interactions : ℝ) * 2.5))) := by
  simp only [_update_scores, hlast]

theorem exp_neg693_bounds :
    (0.50007 : ℝ) ≤ Real.exp (-(0.693 : ℝ)) ∧ Real.exp (-(0.693 : ℝ)) ≤ 0.500074 := by
  have habs : |(-(0.693 : ℝ))| ≤ 1 := by
    rw [abs_neg, abs_of_nonneg (by norm_num : (0 : ℝ) ≤ 0.693)]
    norm_num
  have hb := @Real.exp_bound (-(0.693 : ℝ)) habs 8 (by norm_num)
  rw [abs_neg, abs_of_nonneg (by norm_num : (0 : ℝ) ≤ 0.693)] at hb
  rw [Finset.sum_range_succ, Finset.sum_range_succ, Finset.sum_range_succ,
    Finset.sum_range_succ, Finset.sum_range_succ, Finset.sum_range_succ,
    Finset.sum_range_succ, Finset.sum_range_succ, Finset.sum_range_zero] at hb
  norm_num [Nat.factorial] at hb
  rw [abs_le] at hb
  constructor
  · linarith [hb.1]
  · linarith [hb.2]

theorem pyRound2_eq_down (x : ℝ) (z : ℤ) (h1 : (z : ℝ) ≤ x * 100)
    (h2 : x * 100 < (z : ℝ) + 1 / 2) :
    pyRound2 x = (z : ℝ) / 100 := by
  have hfl : ⌊x * 100⌋ = z := by
    rw [Int.floor_eq_iff]
    exact ⟨h1, by linarith⟩
  simp only [pyRound2]
  rw [hfl, if_pos (show x * 100 - (z : ℝ) < 1 / 2 by linarith)]

theorem segments_mem_iff (q : Profile) (nm : String) :
    nm ∈ (_update_segments q).segments ↔
      ∃ lo hi, (nm, lo, hi) ∈ SEGMENT_THRESHOLDS ∧
        lo ≤ q.engagement_score.getD 0 ∧ q.engagement_score.getD 0 < hi := by
  unfold _update_segments
  simp only [List.mem_map, List.mem_filter, decide_eq_true_eq]
  constructor
  · rintro ⟨⟨n1, lo, hi⟩, ⟨hmem, h1, h2⟩, rfl⟩
    exact ⟨lo, hi, hmem, h1, h2⟩
  · rintro ⟨lo, hi, hmem, h1, h2⟩
    exact ⟨(nm, lo, hi), ⟨hmem, h1, h2⟩, rfl⟩

end PB

/-- Claim C2: `ProfileBuilder.update_profile` implements optimistic
concurrency with the default `max_retries = 3`.  For every run (any store, any
concurrent interference): a CAS write succeeds only when the store at write
time still holds a document matching the profile id with `version` equal to
the pre-read version `v`, and the written profile then carries
`version = v + 1` and is in the store (strict version increase per successful
write); a failed CAS leaves the store untouched; at most three attempts are
made; and `OptimisticLockError` is raised exactly when all three attempts
fail.  A returned profile is the one written by the successful attempt. -/
theorem claim_C2_optimistic_concurrency (pid : String) (e : Event) (now : ℚ)
    (interf : List (List PB.Profile → List PB.Profile)) (store : List PB.Profile) :
    (∀ a ∈ (PB.update_profile pid e now interf store).attempts,
        (a.casOk = true →
          (∃ old ∈ a.storeAtWrite, PB.docMatches pid (a.readDoc.version.getD 0) old = true)
          ∧ a.written.version = some (a.readDoc.version.getD 0 + 1)
          ∧ a.written ∈ a.storeAfter)
        ∧ (a.casOk = false → a.storeAfter = a.storeAtWrite))
    ∧ (PB.update_profile pid e now interf store).attempts.length ≤ 3
    ∧ ((PB.update_profile pid e now interf store).outcome = .lockError →
        (PB.update_profile pid e now interf store).attempts.length = 3
        ∧ ∀ a ∈ (PB.update_profile pid e now interf store).attempts, a.casOk = false)
    ∧ (∀ p, (PB.update_profile pid e now interf store).outcome = .ok p →
        ∃ a ∈ (PB.update_profile pid e now interf store).attempts,
          a.casOk = true ∧ a.written = p) := by
  obtain ⟨h1, h2, h3, h4⟩ :=
    PB.updateLoop_spec pid e now 3 interf store (PB.update_profile pid e now interf store) rfl
  refine ⟨?_, h2, h3, h4⟩
  intro a ha
  obtain ⟨c1, c2⟩ := h1 a ha
  refine ⟨fun hok => ?_, c2⟩
  obtain ⟨hold, hbuilt, hmem⟩ := c1 hok
  exact ⟨hold, by rw [hbuilt, PB.buildUpdated_version], hmem⟩

/-- Witness for C2: a stored document without a `version` field never
satisfies the CAS filter `{"version": 0}`, so a concrete run makes exactly
three failed attempts before `OptimisticLockError`. -/
theorem claim_C2_optimistic_concurrency_witness :
    (PB.update_profile "p1" ⟨none, none, [], [], []⟩ 0 []
        [⟨"p1", none, [], [], none, none, [], [], none⟩]).attempts.length = 3
    ∧ ∀ a ∈ (PB.update_profile "p1" ⟨none, none, [], [], []⟩ 0 []
        [⟨"p1", none, [], [], none, none, [], [], none⟩]).attempts, a.casOk = false :=
  (claim_C2_optimistic_concurrency "p1" ⟨none, none, [], [], []⟩ 0 []
    [⟨"p1", none, [], [], none, none, [], [], none⟩]).2.2.1 rfl

/-- Claim C10: when no profile with the given id exists, `update_profile`
raises `ValueError` and performs no write: the final store is the initial one
and no attempt was made. -/
theorem claim_C10_missing_profile_value_error (pid : String) (e : Event) (now : ℚ)
    (interf : List (List PB.Profile → List PB.Profile)) (store : List PB.Profile)
    (h : PB.findOne store pid = none) :
    PB.update_profile pid e now interf store = ⟨.notFound pid, store, []⟩ := by
  rw [show PB.update_profile pid e now interf store =
    (match PB.findOne store pid with
      | none => ⟨.notFound pid, store, []⟩
      | some profile =>
        let v := profile.version.getD 0
        let newP := PB.buildUpdated profile e now v
        let store1 := (interf.headD id) store
        let wr := PB.replaceFirst store1 pid v newP
        let att : PB.Attempt := ⟨profile, newP, store1, wr.1, wr.2 == 1⟩
        if wr.2 = 1 then ⟨.ok newP, wr.1, [att]⟩
        else
          let r2 := PB.updateLoop pid e now 2 interf.tail wr.1
          ⟨r2.outcome, r2.store, att :: r2.attempts⟩ : PB.RunResult) from rfl]
  rw [h]

/-- Witness for C10 at the empty store. -/
theorem claim_C10_missing_profile_value_error_witness :
    PB.findOne [] "p1" = none
    ∧ PB.update_profile "p1" ⟨none, none, [], [], []⟩ 0 [] [] = ⟨.notFound "p1", [], []⟩ :=
  ⟨rfl, claim_C10_missing_profile_value_error "p1" ⟨none, none, [], [], []⟩ 0 [] [] rfl⟩

/-- Counterexample to C1 as stated: a successful `update_profile` run whose
event carries the identifier pair `("email", "b")` (both components
non-empty), while the persisted profile keeps its prior identifier
`("email", "a")` — the event's pair is not in the profile. -/
theorem claim_C1_counterexample :
    (⟨"email", "b"⟩ : Ident) ∈ PB.exEventC1.identifiers
    ∧ PB.okSucceeded (PB.update_profile "p1" PB.exEventC1 0 [] [PB.exProfileC1]) = true
    ∧ PB.okIdentifier (PB.update_profile "p1" PB.exEventC1 0 [] [PB.exProfileC1]) "email"
        = some "a"
    ∧ some "a" ≠ some "b" :=
  ⟨by decide, rfl, rfl, by decide⟩

/-- Claim C1 (amended): after a successful `update_profile`, for every event
identifier pair with both components non-empty, the persisted profile holds an
identifier of that type; it is the event's value (the first acceptable one for
that type) when the read profile had no identifier of that type, and the read
profile's existing value otherwise — an existing identifier of the same type
is never overwritten. -/
theorem claim_C1_identifier_merge (pid : String) (e : Event) (now : ℚ)
    (interf : List (List PB.Profile → List PB.Profile)) (store : List PB.Profile)
    (p : PB.Profile)
    (hok : (PB.update_profile pid e now interf store).outcome = .ok p) :
    ∃ a ∈ (PB.update_profile pid e now interf store).attempts, a.written = p ∧
      ∀ i ∈ e.identifiers, i.idType ≠ "" → i.idValue ≠ "" →
        (∃ w, dget p.identifiers i.idType = some w)
        ∧ (∀ w, dget a.readDoc.identifiers i.idType = some w →
            dget p.identifiers i.idType = some w)
        ∧ (dget a.readDoc.identifiers i.idType = none →
            dget p.identifiers i.idType = PB.firstNewValue i.idType e.identifiers) := by
  obtain ⟨h1, _, _, h4⟩ :=
    PB.updateLoop_spec pid e now 3 interf store (PB.update_profile pid e now interf store) rfl
  obtain ⟨a, ha, hcas, hwr⟩ := h4 p hok
  obtain ⟨_, hbuilt, _⟩ := (h1 a ha).1 hcas
  have hid : dget p.identifiers = dget (e.identifiers.foldl PB.mergeStep a.readDoc.identifiers) := by
    rw [← hwr, hbuilt, PB.buildUpdated_identifiers]
  refine ⟨a, ha, hwr, ?_⟩
  intro i hi ht hv
  have hfold := fun t => PB.dget_mergeFold e.identifiers a.readDoc.identifiers t
  refine ⟨?_, ?_, ?_⟩
  · cases hex : dget a.readDoc.identifiers i.idType with
    | some w =>
      refine ⟨w, ?_⟩
      rw [congrFun hid i.idType, hfold i.idType, hex]
    | none =>
      obtain ⟨w, hw⟩ := PB.firstNewValue_isSome i hi rfl ht hv
      refine ⟨w, ?_⟩
      rw [congrFun hid i.idType, hfold i.idType, hex, hw]
  · intro w hex
    rw [congrFun hid i.idType, hfold i.idType, hex]
  · intro hex
    rw [congrFun hid i.idType, hfold i.idType, hex]

/-- Witness for the amended C1 on a concrete run: the stored profile keeps
`email ↦ "a"` against the incoming `email ↦ "b"`. -/
theorem claim_C1_identifier_merge_witness :
    ∃ a ∈ (PB.update_profile "p1" PB.exEventC1 0 [] [PB.exProfileC1]).attempts,
      a.written = PB.buildUpdated PB.exProfileC1 PB.exEventC1 0 0 ∧
      ∀ i ∈ PB.exEventC1.identifiers, i.idType ≠ "" → i.idValue ≠ "" →
        (∃ w, dget (PB.buildUpdated PB.exProfileC1 PB.exEventC1 0 0).identifiers i.idType
            = some w)
        ∧ (∀ w, dget a.readDoc.identifiers i.idType = some w →
            dget (PB.buildUpdated PB.exProfileC1 PB.exEventC1 0 0).identifiers i.idType
              = some w)
        ∧ (dget a.readDoc.identifiers i.idType = none →
            dget (PB.buildUpdated PB.exProfileC1 PB.exEventC1 0 0).identifiers i.idType
              = PB.firstNewValue i.idType PB.exEventC1.identifiers) :=
  claim_C1_identifier_merge "p1" PB.exEventC1 0 [] [PB.exProfileC1]
    (PB.buildUpdated PB.exProfileC1 PB.exEventC1 0 0) rfl

/-- Counterexample to C9 as stated: an unknown source is routed to the DLQ
with the reason text `"Unknown event source: sms"`, not the literal
`"unknown_source"`; and for an exception text of 130 characters the DLQ
record carries the full text, which differs from its first 120 characters
(only the DLQ counter label is truncated). -/
theorem claim_C9_counterexample :
    (SP._process_one (fun _ => .error "e") SP.exMsgSms).dlq
        = [⟨SP.exMsgSms, "Unknown event source: sms"⟩]
    ∧ ("Unknown event source: sms" : String) ≠ "unknown_source"
    ∧ (SP._process_one (fun _ => .error SP.exLongErr) SP.exMsgApp).dlq
        = [⟨SP.exMsgApp, SP.exLongErr⟩]
    ∧ pyTake SP.exLongErr 120 ≠ SP.exLongErr :=
  ⟨rfl, by decide, rfl, by decide⟩

/-- Claim C9 (amended): `_process_one` never re-raises (it is a total function
into its observable effects); a message whose source is not in
`VALID_SOURCES` goes to the DLQ with reason `"Unknown event source: {source}"`
and nothing is staged; a message whose processing raises an exception goes to
the DLQ carrying the full error text, with the DLQ counter's reason label
truncated to the first 120 characters; successful messages are staged. -/
theorem claim_C9_dlq_routing (pipeline : Event → Except String (String × PB.Profile))
    (msg : Event) :
    (msg.source.getD "unknown" ∉ SP.VALID_SOURCES →
      SP._process_one pipeline msg =
        ⟨[], [⟨msg, "Unknown event source: " ++ msg.source.getD "unknown"⟩],
          [pyTake ("Unknown event source: " ++ msg.source.getD "unknown") 120], []⟩)
    ∧ (∀ e, msg.source.getD "unknown" ∈ SP.VALID_SOURCES → pipeline msg = .error e →
        SP._process_one pipeline msg = ⟨[], [⟨msg, e⟩], [pyTake e 120], []⟩)
    ∧ (∀ pr, msg.source.getD "unknown" ∈ SP.VALID_SOURCES → pipeline msg = .ok pr →
        SP._process_one pipeline msg =
          ⟨[⟨pr.1, msg, pr.2⟩], [], [], [msg.source.getD "unknown"]⟩) := by
  refine ⟨?_, ?_, ?_⟩
  · intro h
    simp [SP._process_one, SP._send_to_dlq, h]
  · intro e hs hp
    simp [SP._process_one, SP._send_to_dlq, hs, hp]
  · intro pr hs hp
    simp [SP._process_one, SP._send_to_dlq, hs, hp]

/-- Witness for the amended C9 at the concrete `sms` message. -/
theorem claim_C9_dlq_routing_witness :
    SP._process_one (fun _ => .error "e") SP.exMsgSms =
      ⟨[], [⟨SP.exMsgSms, "Unknown event source: " ++ SP.exMsgSms.source.getD "unknown"⟩],
        [pyTake ("Unknown event source: " ++ SP.exMsgSms.source.getD "unknown") 120], []⟩ :=
  (claim_C9_dlq_routing (fun _ => .error "e") SP.exMsgSms).1 (by decide)

/-- Claim C7 evaluated at the failing input: for the payload entry
`{"note": "²"}` (U+00B2 SUPERSCRIPT TWO, a digit-typed character that is not a
decimal digit), `str.isdigit` accepts the value, so `_coerce_types` calls
`int()` on it and raises `ValueError` instead of never throwing. -/
theorem claim_C7_coercion_raises (tsRender : FN.PyVal → FN.PyVal) :
    FN.pyIsdigit [FN.PyChar.digitNotDec] = true
    ∧ FN._coerce_types tsRender [("note", FN.PyVal.vStr [FN.PyChar.digitNotDec])]
        = .error "invalid literal for int() with base 10" :=
  ⟨rfl, rfl⟩

/-- Counterexample to C6 as stated: the substitution on
`"2025-01-02T10:00:00 CET"` does produce `"2025-01-02T10:00:00 +01:00"`, but
`fromisoformat` rejects the space before the offset, so `_parse_timestamp`
degrades to `now` instead of the claimed 2025-01-02T09:00:00+00:00. -/
theorem claim_C6_counterexample :
    FN.applyTzReplacements "2025-01-02T10:00:00 CET" = "2025-01-02T10:00:00 +01:00"
    ∧ FN.fromisoformat "2025-01-02T10:00:00 +01:00" = none
    ∧ FN._parse_timestamp (.str "2025-01-02T10:00:00 CET") 999 = 999
    ∧ (999 : ℤ) ≠ FN.civilMicro 2025 1 2 9 0 0 := by
  refine ⟨by decide, by decide, by decide, by decide⟩

/-- Claim C6 (amended): the timestamp rules hold as stated — tz-aware
datetimes are converted to UTC, naive ones are tagged UTC, numbers are POSIX
time, strings are stripped, named-zone substituted and ISO-parsed with a
fallback to `now` — but for the worked example the substitution leaves a space
before the offset, which `fromisoformat` rejects, so
`"2025-01-02T10:00:00 CET"` degrades to `now`; the space-free
`"2025-01-02T10:00:00CET"` does normalize to 2025-01-02T09:00:00+00:00. -/
theorem claim_C6_timestamp_rules (naive off x now : ℤ) (s : String) :
    FN._parse_timestamp (.dt naive (some off)) now = naive - off
    ∧ FN._parse_timestamp (.dt naive none) now = naive
    ∧ FN._parse_timestamp (.num x) now = x
    ∧ (FN.fromisoformat (FN.applyTzReplacements (FN.pyStrip s)) = none →
        FN._parse_timestamp (.str s) now = now)
    ∧ (∀ p, FN.fromisoformat (FN.applyTzReplacements (FN.pyStrip s)) = some p →
        FN._parse_timestamp (.str s) now = p.naive - p.offsetMicro.getD 0)
    ∧ FN._parse_timestamp (.str "2025-01-02T10:00:00 CET") now = now
    ∧ FN._parse_timestamp (.str "2025-01-02T10:00:00CET") now = FN.civilMicro 2025 1 2 9 0 0 := by
  refine ⟨rfl, rfl, rfl, ?_, ?_, ?_, ?_⟩
  · intro h
    simp only [FN._parse_timestamp]
    rw [h]
  · intro p h
    simp only [FN._parse_timestamp]
    rw [h]
    cases hp : p.offsetMicro <;> simp [hp]
  · simp only [FN._parse_timestamp]
    rw [show FN.fromisoformat (FN.applyTzReplacements (FN.pyStrip "2025-01-02T10:00:00 CET"))
      = none from by decide]
  · simp only [FN._parse_timestamp]
    rw [show FN.fromisoformat (FN.applyTzReplacements (FN.pyStrip "2025-01-02T10:00:00CET"))
      = some ⟨FN.civilMicro 2025 1 2 10 0 0, some 3600000000⟩ from by decide]
    show FN.civilMicro 2025 1 2 10 0 0 - 3600000000 = FN.civilMicro 2025 1 2 9 0 0
    decide

/-- Witness for the amended C6: the fallback conjunct applied to a concrete
unparseable string. -/
theorem claim_C6_timestamp_rules_witness :
    FN._parse_timestamp (.str "garbage") 42 = 42 :=
  (claim_C6_timestamp_rules 0 0 0 42 "garbage").2.2.2.1 (by decide)

namespace CM

theorem entryIn_get_consent (st : State) (sid : String) (now : ℚ) (c : String) :
    entryIn st.consents sid c = dget (get_consent st sid now).channels c := by
  unfold entryIn get_consent findRecord
  cases h : findRec st.consents sid <;> simp [h, dget]

theorem check_consent_entryIn (st : State) (sid c : String) :
    check_consent st sid c = ((entryIn st.consents sid c).map (·.consented)).getD false := by
  unfold check_consent entryIn findRecord
  cases h : findRec st.consents sid <;> simp [h]

theorem entryIn_upsert (l : List ChannelConsent) (sid channel : String) (e : Entry) (now : ℚ)
    (sid' c' : String) :
    entryIn (upsertRecords l sid channel e now) sid' c' =
      if sid' = sid then (if c' = channel then some e else entryIn l sid c')
      else entryIn l sid' c' := by
  induction l with
  | nil =>
    by_cases hs : sid' = sid
    · subst hs
      by_cases hc : c' = channel
      · subst hc
        simp [upsertRecords, entryIn, findRec, dget]
      · have hc2 : ¬channel = c' := fun h => hc h.symm
        simp [upsertRecords, entryIn, findRec, dget, hc, hc2]
    · have hs2 : ¬sid = sid' := fun h => hs h.symm
      simp [upsertRecords, entryIn, findRec, hs, hs2]
  | cons r rest ih =>
    by_cases hr : r.student_id = sid
    · by_cases hs : sid' = sid
      · subst hs
        have hr2 : r.student_id = sid' := hr
        by_cases hc : c' = channel
        · subst hc
          simp [upsertRecords, entryIn, findRec, hr, hr2, dget_dset]
        · have hc2 : ¬channel = c' := fun h => hc h.symm
          simp [upsertRecords, entryIn, findRec, hr, hr2, dget_dset, hc, hc2]
      · have hss : ¬sid = sid' := fun h => hs h.symm
        have hr2 : ¬r.student_id = sid' := fun h => hss (hr ▸ h)
        simp [upsertRecords, entryIn, findRec, hr, hr2, hs, hss]
    · by_cases hx : r.student_id = sid'
      · have hs : ¬sid' = sid := fun h => hr (hx.trans h)
        simp [upsertRecords, entryIn, findRec, hr, hx, hs]
      · simp only [upsertRecords, if_neg hr]
        have hgo : entryIn (r :: upsertRecords rest sid channel e now) sid' c'
            = entryIn (upsertRecords rest sid channel e now) sid' c' := by
          simp [entryIn, findRec, hx]
        rw [hgo, ih]
        by_cases hs : sid' = sid
        · subst hs
          by_cases hc : c' = channel <;> simp [hc, entryIn, findRec, hx, hr]
        · simp [hs, entryIn, findRec, hx]

theorem entryIn_deleteOne (l : List ChannelConsent) (sid x c : String) (h : x ≠ sid) :
    entryIn (deleteOne l sid) x c = entryIn l x c := by
  induction l with
  | nil => rfl
  | cons r rest ih =>
    have hsx : ¬sid = x := fun e => h e.symm
    by_cases hr : r.student_id = sid
    · have hx : ¬r.student_id = x := fun e => h (e.symm.trans hr)
      simp [deleteOne, entryIn, findRec, hr, hx, hsx]
    · by_cases hx : r.student_id = x
      · simp [deleteOne, entryIn, findRec, hr, hx, hsx, h]
      · simpa [deleteOne, entryIn, findRec, hr, hx, hsx, h] using ih

theorem countP_upsert (l : List ChannelConsent) (sid channel : String) (e : Entry) (now : ℚ)
    (x : String) (hx : x ≠ sid) :
    (upsertRecords l sid channel e now).countP (fun r => decide (r.student_id = x))
      = l.countP (fun r => decide (r.student_id = x)) := by
  induction l with
  | nil =>
    have hsx : ¬sid = x := fun h => hx h.symm
    simp [upsertRecords, List.countP_cons, hsx]
  | cons r rest ih =>
    by_cases hr : r.student_id = sid
    · simp [upsertRecords, hr, List.countP_cons]
    · simp [upsertRecords, hr, List.countP_cons, ih]

theorem findRec_none_of_countP_zero (l : List ChannelConsent) (x : String)
    (h : l.countP (fun r => decide (r.student_id = x)) = 0) : findRec l x = none := by
  induction l with
  | nil => rfl
  | cons r rest ih =>
    by_cases hr : r.student_id = x
    · rw [List.countP_cons_of_pos _ _ (by simp [hr])] at h
      omega
    · rw [List.countP_cons_of_neg _ _ (by simp [hr])] at h
      simp [findRec, hr, ih h]

theorem findRec_deleteOne_none (l : List ChannelConsent) (x : String)
    (h : l.countP (fun r => decide (r.student_id = x)) ≤ 1) :
    findRec (deleteOne l x) x = none := by
  induction l with
  | nil => rfl
  | cons r rest ih =>
    by_cases hr : r.student_id = x
    · rw [List.countP_cons_of_pos _ _ (by simp [hr])] at h
      have h0 : rest.countP (fun r => decide (r.student_id = x)) = 0 := by omega
      simp [deleteOne, hr, findRec_none_of_countP_zero rest x h0]
    · rw [List.countP_cons_of_neg _ _ (by simp [hr])] at h
      simp [deleteOne, findRec, hr, ih h]

theorem update_consent_ok (st : State) (sid c : String) (b : Bool) (lb src : String) (now : ℚ)
    (hc : c ∈ CHANNELS) :
    update_consent st sid c b lb src now =
      .ok ⟨upsertRecords st.consents sid c ⟨c, b, lb, now, CURRENT_TERMS_VERSION⟩ now,
        st.audit ++ [⟨sid, c, (entryIn st.consents sid c).map (·.consented), b, lb,
          CURRENT_TERMS_VERSION, src, now⟩]⟩ := by
  unfold update_consent
  rw [if_pos hc]
  unfold get_consent findRecord entryIn
  cases h : findRec st.consents sid <;> simp [h, dget]

theorem mergeLoop_spec (pid : String) (primary secondary : ChannelConsent) (now : ℚ) :
    ∀ (cs : List String) (st : State), (∀ c ∈ cs, c ∈ CHANNELS) → cs.Nodup →
      (∀ c ∈ cs, entryIn st.consents pid c = dget primary.channels c) →
      ∃ st', mergeLoop pid primary secondary now cs st = .ok st'
        ∧ (∀ sid c, sid ≠ pid → entryIn st'.consents sid c = entryIn st.consents sid c)
        ∧ (∀ c, c ∉ cs → entryIn st'.consents pid c = entryIn st.consents pid c)
        ∧ (∀ c ∈ cs, ((entryIn st'.consents pid c).map (·.consented)).getD false
            = mergedVal primary secondary c)
        ∧ st'.audit = st.audit
            ++ (cs.filter (mergeTrigger primary secondary)).map
                (mergeAuditEntry pid primary secondary now)
        ∧ (∀ x, x ≠ pid → st'.consents.countP (fun r => decide (r.student_id = x))
            = st.consents.countP (fun r => decide (r.student_id = x))) := by
  intro cs
  induction cs with
  | nil =>
    intro st _ _ _
    exact ⟨st, rfl, fun _ _ _ => rfl, fun _ _ => rfl, by simp, by simp, fun _ _ => rfl⟩
  | cons c cs ih =>
    intro st hmem hnod hpre
    have hcCH : c ∈ CHANNELS := hmem c (List.mem_cons_self c cs)
    have hnod2 := (List.nodup_cons.mp hnod).2
    have hcnotin := (List.nodup_cons.mp hnod).1
    rw [show mergeLoop pid primary secondary now (c :: cs) st =
      (if dget primary.channels c = none
          ∨ (dget primary.channels c).map (·.consented)
              ≠ some (mergedVal primary secondary c) then
        match update_consent st pid c (mergedVal primary secondary c)
            "legitimate_interest" "api" now with
        | .ok st1 => mergeLoop pid primary secondary now cs st1
        | .error e => .error e
      else mergeLoop pid primary secondary now cs st) from rfl]
    by_cases hcond : dget primary.channels c = none
        ∨ (dget primary.channels c).map (·.consented) ≠ some (mergedVal primary secondary c)
    · rw [if_pos hcond, update_consent_ok st pid c (mergedVal primary secondary c)
        "legitimate_interest" "api" now hcCH]
      set st1 : State :=
        ⟨upsertRecords st.consents pid c
            ⟨c, mergedVal primary secondary c, "legitimate_interest", now,
              CURRENT_TERMS_VERSION⟩ now,
          st.audit ++ [⟨pid, c, (entryIn st.consents pid c).map (·.consented),
            mergedVal primary secondary c, "legitimate_interest", CURRENT_TERMS_VERSION,
            "api", now⟩]⟩ with hst1
      have hpre1 : ∀ c0 ∈ cs, entryIn st1.consents pid c0 = dget primary.channels c0 := by
        intro c0 hc0
        have hne : ¬c0 = c := fun h => hcnotin (h ▸ hc0)
        rw [hst1]
        simp only [entryIn_upsert, if_pos rfl, if_neg hne]
        exact hpre c0 (List.mem_cons_of_mem c hc0)
      obtain ⟨st', hrun, hother, hout, hval, haud, hcount⟩ := ih st1
        (fun c0 hc0 => hmem c0 (List.mem_cons_of_mem c hc0)) hnod2 hpre1
      refine ⟨st', hrun, ?_, ?_, ?_, ?_, ?_⟩
      · intro sid c0 hsid
        rw [hother sid c0 hsid, hst1]
        simp [entryIn_upsert, hsid]
      · intro c0 hc0
        have h1 : c0 ∉ cs := fun h => hc0 (List.mem_cons_of_mem c h)
        have h2 : ¬c0 = c := fun h => hc0 (h ▸ List.mem_cons_self c cs)
        rw [hout c0 h1, hst1]
        simp [entryIn_upsert, h2]
      · intro c0 hc0
        rcases List.mem_cons.mp hc0 with rfl | hc0
        · rw [hout c0 hcnotin, hst1]
          simp [entryIn_upsert]
        · exact hval c0 hc0
      · rw [haud, hst1]
        have htrig : mergeTrigger primary secondary c = true := by
          simp only [mergeTrigger, decide_eq_true_eq]
          exact hcond
        have hfil : (c :: cs).filter (mergeTrigger primary secondary)
            = c :: cs.filter (mergeTrigger primary secondary) := by
          simp [List.filter_cons, htrig]
        rw [hfil]
        simp only [List.map_cons]
        rw [show mergeAuditEntry pid primary secondary now c =
          ⟨pid, c, (entryIn st.consents pid c).map (·.consented), mergedVal primary secondary c,
            "legitimate_interest", CURRENT_TERMS_VERSION, "api", now⟩ by
          unfold mergeAuditEntry
          rw [hpre c (List.mem_cons_self c cs)]]
        simp
      · intro x hx
        rw [hcount x hx, hst1]
        simp [countP_upsert _ _ _ _ _ _ hx]
    · rw [if_neg hcond]
      obtain ⟨st', hrun, hother, hout, hval, haud, hcount⟩ := ih st
        (fun c0 hc0 => hmem c0 (List.mem_cons_of_mem c hc0)) hnod2
        (fun c0 hc0 => hpre c0 (List.mem_cons_of_mem c hc0))
      push_neg at hcond
      refine ⟨st', hrun, hother, ?_, ?_, ?_, hcount⟩
      · intro c0 hc0
        exact hout c0 (fun h => hc0 (List.mem_cons_of_mem c h))
      · intro c0 hc0
        rcases List.mem_cons.mp hc0 with rfl | hc0
        · rw [hout c0 hcnotin, hpre c0 (List.mem_cons_self c0 cs), hcond.2]
          simp
        · exact hval c0 hc0
      · rw [haud]
        have hfil : (c :: cs).filter (mergeTrigger primary secondary)
            = cs.filter (mergeTrigger primary secondary) := by
          have : mergeTrigger primary secondary c = false := by
            simp only [mergeTrigger, decide_eq_false_iff_not]
            push_neg
            exact hcond
          simp [List.filter_cons, this]
        rw [hfil]

theorem merge_consent_one_direction (st : State) (X Y : String) (now : ℚ) (c : String)
    (hXY : X ≠ Y) (hc : c ∈ CHANNELS) :
    ∃ stXY, merge_consent st X Y now = .ok stXY
      ∧ check_consent stXY X c = (check_consent st X c && check_consent st Y c) := by
  have hpre : ∀ c0 ∈ CHANNELS,
      entryIn st.consents X c0 = dget (get_consent st X now).channels c0 :=
    fun c0 _ => entryIn_get_consent st X now c0
  obtain ⟨stL, hrun, hother, hout, hval, haud, hcount⟩ :=
    mergeLoop_spec X (get_consent st X now) (get_consent st Y now) now CHANNELS st
      (fun c0 h => h) (by decide) hpre
  refine ⟨⟨deleteOne stL.consents Y, stL.audit⟩, ?_, ?_⟩
  · rw [show merge_consent st X Y now =
      (match mergeLoop X (get_consent st X now) (get_consent st Y now) now CHANNELS st with
        | Except.ok st1 => Except.ok (⟨deleteOne st1.consents Y, st1.audit⟩ : State)
        | Except.error e => Except.error e) from rfl, hrun]
  · rw [check_consent_entryIn,
      show entryIn (deleteOne stL.consents Y) X c = entryIn stL.consents X c from
        entryIn_deleteOne _ _ _ _ hXY,
      hval c hc, check_consent_entryIn, check_consent_entryIn]
    unfold mergedVal
    rw [entryIn_get_consent st X now c, entryIn_get_consent st Y now c]

end CM

/-- Claim C4: `ConsentManager.merge_consent` is most-restrictive and
commutative.  For every state, every pair of distinct students and every
channel, merging leaves the primary's consent equal to the conjunction of the
two prior consent states (a missing entry or record counting as not
consented), so `merge(A,B)` on `A` and `merge(B,A)` on `B` agree per
channel. -/
theorem claim_C4_merge_most_restrictive_commutative (st : CM.State) (A B : String) (now : ℚ)
    (hAB : A ≠ B) (c : String) (hc : c ∈ CM.CHANNELS) :
    ∃ stAB stBA, CM.merge_consent st A B now = .ok stAB
      ∧ CM.merge_consent st B A now = .ok stBA
      ∧ CM.check_consent stAB A c = (CM.check_consent st A c && CM.check_consent st B c)
      ∧ CM.check_consent stBA B c = (CM.check_consent st B c && CM.check_consent st A c)
      ∧ CM.check_consent stAB A c = CM.check_consent stBA B c := by
  obtain ⟨stAB, hAB1, hAB2⟩ := CM.merge_consent_one_direction st A B now c hAB hc
  obtain ⟨stBA, hBA1, hBA2⟩ := CM.merge_consent_one_direction st B A now c (Ne.symm hAB) hc
  exact ⟨stAB, stBA, hAB1, hBA1, hAB2, hBA2,
    by rw [hAB2, hBA2, Bool.and_comm]⟩

/-- Witness for C4 on a concrete state: a present `email: true` entry for `A`
merged against an absent record for `B`. -/
theorem claim_C4_merge_most_restrictive_commutative_witness :
    ∃ stAB stBA,
      CM.merge_consent ⟨[⟨"p", [("email", ⟨"email", true, "consent", 0, "v1.0"⟩)], 0, 0⟩], []⟩
          "p" "s" 0 = .ok stAB
      ∧ CM.merge_consent ⟨[⟨"p", [("email", ⟨"email", true, "consent", 0, "v1.0"⟩)], 0, 0⟩], []⟩
          "s" "p" 0 = .ok stBA
      ∧ CM.check_consent stAB "p" "email"
          = (CM.check_consent ⟨[⟨"p", [("email", ⟨"email", true, "consent", 0, "v1.0"⟩)], 0, 0⟩], []⟩
              "p" "email"
            && CM.check_consent ⟨[⟨"p", [("email", ⟨"email", true, "consent", 0, "v1.0"⟩)], 0, 0⟩], []⟩
              "s" "email")
      ∧ CM.check_consent stBA "s" "email"
          = (CM.check_consent ⟨[⟨"p", [("email", ⟨"email", true, "consent", 0, "v1.0"⟩)], 0, 0⟩], []⟩
              "s" "email"
            && CM.check_consent ⟨[⟨"p", [("email", ⟨"email", true, "consent", 0, "v1.0"⟩)], 0, 0⟩], []⟩
              "p" "email")
      ∧ CM.check_consent stAB "p" "email" = CM.check_consent stBA "s" "email" :=
  claim_C4_merge_most_restrictive_commutative
    ⟨[⟨"p", [("email", ⟨"email", true, "consent", 0, "v1.0"⟩)], 0, 0⟩], []⟩
    "p" "s" 0 (by decide) "email" (by decide)

/-- Counterexample to C5 as stated: when the primary already holds explicit
`consented = false` entries for all six channels and the secondary has no
record, every merged value equals the stored value, so `merge_consent`
invokes `update_consent` for no channel at all and the audit log stays empty
(the claim demands one audit entry per channel). -/
theorem claim_C5_counterexample :
    CM.merge_consent CM.exStateC5 "p" "s" 0 = .ok CM.exStateC5
    ∧ CM.exStateC5.audit = [] :=
  ⟨rfl, rfl⟩

/-- Claim C5 (amended): `merge_consent(A, B)` with `A ≠ B` applies the merged
value via `update_consent` exactly for the channels (among the six) where the
primary record has no entry or its consented value differs from the merged
value; each such update appends one audit document with student `A`, legal
basis `legitimate_interest` and source `api`; afterwards the secondary's
consent record is deleted (assuming at most one stored record for `B`). -/
theorem claim_C5_merge_consent_updates (st : CM.State) (A B : String) (now : ℚ)
    (hAB : A ≠ B)
    (hone : st.consents.countP (fun r => decide (r.student_id = B)) ≤ 1) :
    ∃ st', CM.merge_consent st A B now = .ok st'
      ∧ st'.audit = st.audit
          ++ (CM.CHANNELS.filter
                (CM.mergeTrigger (CM.get_consent st A now) (CM.get_consent st B now))).map
              (CM.mergeAuditEntry A (CM.get_consent st A now) (CM.get_consent st B now) now)
      ∧ (∀ en ∈ st'.audit.drop st.audit.length,
          en.student_id = A ∧ en.channel ∈ CM.CHANNELS
          ∧ en.legal_basis = "legitimate_interest" ∧ en.source = "api")
      ∧ CM.findRec st'.consents B = none := by
  have hpre : ∀ c0 ∈ CM.CHANNELS,
      CM.entryIn st.consents A c0 = dget (CM.get_consent st A now).channels c0 :=
    fun c0 _ => CM.entryIn_get_consent st A now c0
  obtain ⟨stL, hrun, hother, hout, hval, haud, hcount⟩ :=
    CM.mergeLoop_spec A (CM.get_consent st A now) (CM.get_consent st B now) now CM.CHANNELS st
      (fun c0 h => h) (by decide) hpre
  refine ⟨⟨CM.deleteOne stL.consents B, stL.audit⟩, ?_, haud, ?_, ?_⟩
  · rw [show CM.merge_consent st A B now =
      (match CM.mergeLoop A (CM.get_consent st A now) (CM.get_consent st B now) now
          CM.CHANNELS st with
        | Except.ok st1 => Except.ok (⟨CM.deleteOne st1.consents B, st1.audit⟩ : CM.State)
        | Except.error e => Except.error e) from rfl, hrun]
  · intro en hen
    rw [show (⟨CM.deleteOne stL.consents B, stL.audit⟩ : CM.State).audit = stL.audit from rfl,
      haud, List.drop_left] at hen
    obtain ⟨c0, hc0, rfl⟩ := List.mem_map.mp hen
    exact ⟨rfl, List.mem_of_mem_filter hc0, rfl, rfl⟩
  · exact CM.findRec_deleteOne_none _ _ (by rw [hcount B (Ne.symm hAB)]; exact hone)

namespace IR

theorem bestFold_spec (sim : String → String → ℚ) (ename : String) (vals : Finset String) :
    ∀ (docs : List IRDoc) (acc : Option (String × ℚ)) (pr : String × ℚ),
      docs.foldl (fun best d =>
        let conf := confidenceOf sim ename vals d
        match best with
        | none => some (d.profile_id, conf)
        | some b => if b.2 < conf then some (d.profile_id, conf) else best) acc = some pr →
      ((acc = some pr ∨ ∃ d ∈ docs, d.profile_id = pr.1 ∧ confidenceOf sim ename vals d = pr.2)
        ∧ (∀ d ∈ docs, confidenceOf sim ename vals d ≤ pr.2)
        ∧ (∀ b, acc = some b → b.2 ≤ pr.2)) := by
  intro docs
  induction docs with
  | nil =>
    intro acc pr h
    simp only [List.foldl_nil] at h
    refine ⟨Or.inl h, by simp, fun b hb => ?_⟩
    rw [hb] at h
    simp only [Option.some.injEq] at h
    rw [h]
  | cons d docs ih =>
    intro acc pr h
    simp only [List.foldl_cons] at h
    cases hacc : acc with
    | none =>
      rw [hacc] at h
      simp only [] at h
      obtain ⟨h1, h2, h3⟩ := ih (some (d.profile_id, confidenceOf sim ename vals d)) pr h
      refine ⟨?_, ?_, ?_⟩
      · right
        rcases h1 with h1 | ⟨d2, hd2, hp⟩
        · simp only [Option.some.injEq] at h1
          exact ⟨d, List.mem_cons_self d docs, by rw [← h1], by rw [← h1]⟩
        · exact ⟨d2, List.mem_cons_of_mem d hd2, hp⟩
      · intro d2 hd2
        rcases List.mem_cons.mp hd2 with rfl | hd2
        · exact h3 _ rfl
        · exact h2 d2 hd2
      · intro b hb
        simp at hb
    | some b0 =>
      rw [hacc] at h
      simp only [] at h
      by_cases hlt : b0.2 < confidenceOf sim ename vals d
      · rw [if_pos hlt] at h
        obtain ⟨h1, h2, h3⟩ := ih (some (d.profile_id, confidenceOf sim ename vals d)) pr h
        refine ⟨?_, ?_, ?_⟩
        · right
          rcases h1 with h1 | ⟨d2, hd2, hp⟩
          · simp only [Option.some.injEq] at h1
            exact ⟨d, List.mem_cons_self d docs, by rw [← h1], by rw [← h1]⟩
          · exact ⟨d2, List.mem_cons_of_mem d hd2, hp⟩
        · intro d2 hd2
          rcases List.mem_cons.mp hd2 with rfl | hd2
          · exact h3 _ rfl
          · exact h2 d2 hd2
        · intro b hb
          simp only [Option.some.injEq] at hb
          rw [← hb]
          exact le_of_lt (lt_of_lt_of_le hlt (h3 _ rfl))
      · rw [if_neg hlt] at h
        obtain ⟨h1, h2, h3⟩ := ih (some b0) pr h
        refine ⟨?_, ?_, ?_⟩
        · rcases h1 with h1 | ⟨d2, hd2, hp⟩
          · exact Or.inl h1
          · exact Or.inr ⟨d2, List.mem_cons_of_mem d hd2, hp⟩
        · intro d2 hd2
          rcases List.mem_cons.mp hd2 with rfl | hd2
          · exact le_trans (le_of_not_lt hlt) (h3 b0 rfl)
          · exact h2 d2 hd2
        · intro b hb
          simp only [Option.some.injEq] at hb
          rw [← hb]
          exact h3 b0 rfl

end IR

/-- Claim C3: when no identifier matches deterministically and the
probabilistic matcher returns a candidate, the candidate maximizes
`confidence = 0.6·name_score + 0.4·jaccard` over the `$elemMatch` candidate
set (first maximum wins ties); `resolve` returns the candidate when
`confidence ≥ 0.85`, and otherwise writes a `review_flag` audit document and
creates a new profile.  In particular, with identical names (`name_score 1`)
and identifier overlap `1/2` the confidence is `0.8`, below the threshold:
the event is flagged for review and a new profile is created. -/
theorem claim_C3_probabilistic_resolution (sim : String → String → ℚ)
    (store : List IR.IRDoc) (e : Event) (newId : String) (now : ℚ) (pr : String × ℚ)
    (hdet : IR._deterministic_match store e.identifiers = none)
    (hprob : IR._probabilistic_match sim store e.personal_info e.identifiers = some pr) :
    ((∃ d ∈ IR.elemMatchCandidates store (IR.idValuesOf e.identifiers),
        d.profile_id = pr.1
        ∧ IR.confidenceOf sim (IR.nameOf e.personal_info) (IR.idValuesOf e.identifiers) d = pr.2)
      ∧ ∀ d ∈ IR.elemMatchCandidates store (IR.idValuesOf e.identifiers),
          IR.confidenceOf sim (IR.nameOf e.personal_info) (IR.idValuesOf e.identifiers) d ≤ pr.2)
    ∧ (∀ d, IR.confidenceOf sim (IR.nameOf e.personal_info) (IR.idValuesOf e.identifiers) d
        = 0.6 * sim (pyLower (IR.nameOf e.personal_info)) (pyLower (IR.nameOf d.personal_info))
          + 0.4 * (((IR.idValuesOf e.identifiers ∩ IR.candIdsOf d).card : ℚ)
              / ((max (IR.idValuesOf e.identifiers ∪ IR.candIdsOf d).card 1 : ℕ) : ℚ)))
    ∧ ((0.85 : ℚ) ≤ pr.2 → IR.resolve sim store e newId now = ⟨pr.1, store, []⟩)
    ∧ (pr.2 < (0.85 : ℚ) → IR.resolve sim store e newId now =
        ⟨newId, store ++ [IR._create_profile e newId now],
          [.review_flag pr.1 pr.2 e now, .create newId now]⟩)
    ∧ (sim "ada lovelace" "ada lovelace" = 1 →
        IR.resolve sim IR.exStoreC3 IR.exEventC3 "new-id" 0 =
          ⟨"new-id", IR.exStoreC3 ++ [IR._create_profile IR.exEventC3 "new-id" 0],
            [.review_flag "cand-1" (0.8 : ℚ) IR.exEventC3 0, .create "new-id" 0]⟩) := by
  have hbest : IR.bestOf sim (IR.nameOf e.personal_info) (IR.idValuesOf e.identifiers)
      (IR.elemMatchCandidates store (IR.idValuesOf e.identifiers)) = some pr := by
    by_cases hg : IR.nameOf e.personal_info = "" ∨ IR.idValuesOf e.identifiers = ∅
    · rw [show IR._probabilistic_match sim store e.personal_info e.identifiers =
        (if IR.nameOf e.personal_info = "" ∨ IR.idValuesOf e.identifiers = ∅ then none
          else IR.bestOf sim (IR.nameOf e.personal_info) (IR.idValuesOf e.identifiers)
            (IR.elemMatchCandidates store (IR.idValuesOf e.identifiers))) from rfl,
        if_pos hg] at hprob
      exact absurd hprob (by simp)
    · rw [show IR._probabilistic_match sim store e.personal_info e.identifiers =
        (if IR.nameOf e.personal_info = "" ∨ IR.idValuesOf e.identifiers = ∅ then none
          else IR.bestOf sim (IR.nameOf e.personal_info) (IR.idValuesOf e.identifiers)
            (IR.elemMatchCandidates store (IR.idValuesOf e.identifiers))) from rfl,
        if_neg hg] at hprob
      exact hprob
  obtain ⟨h1, h2, _⟩ := IR.bestFold_spec sim (IR.nameOf e.personal_info)
    (IR.idValuesOf e.identifiers) (IR.elemMatchCandidates store (IR.idValuesOf e.identifiers))
    none pr hbest
  refine ⟨⟨?_, h2⟩, fun d => rfl, ?_, ?_, ?_⟩
  · rcases h1 with h1 | h1
    · cases h1
    · exact h1
  · intro hge
    simp only [IR.resolve, hdet, hprob]
    rw [if_pos (show IR.CONFIDENCE_AUTO_MERGE ≤ pr.2 from hge)]
  · intro hlt
    simp only [IR.resolve, hdet, hprob]
    rw [if_neg (show ¬IR.CONFIDENCE_AUTO_MERGE ≤ pr.2 from not_le.mpr hlt)]
  · intro hsim
    have hd : IR._deterministic_match IR.exStoreC3 IR.exEventC3.identifiers = none := by decide
    have hguard : ¬(IR.nameOf IR.exEventC3.personal_info = ""
        ∨ IR.idValuesOf IR.exEventC3.identifiers = ∅) := by decide
    have hcand : IR.elemMatchCandidates IR.exStoreC3 (IR.idValuesOf IR.exEventC3.identifiers)
        = [IR.exCandC3] := by decide
    have hj : IR.jaccard (IR.idValuesOf IR.exEventC3.identifiers) (IR.candIdsOf IR.exCandC3)
        = 1 / 2 := by
      unfold IR.jaccard
      rw [show (IR.idValuesOf IR.exEventC3.identifiers ∩ IR.candIdsOf IR.exCandC3).card = 1
          from by decide,
        show max (IR.idValuesOf IR.exEventC3.identifiers ∪ IR.candIdsOf IR.exCandC3).card 1 = 2
          from by decide]
      norm_num
    have hconf : IR.confidenceOf sim (IR.nameOf IR.exEventC3.personal_info)
        (IR.idValuesOf IR.exEventC3.identifiers) IR.exCandC3 = (0.8 : ℚ) := by
      unfold IR.confidenceOf
      rw [show IR.nameOf IR.exEventC3.personal_info = "Ada Lovelace" from rfl,
        show IR.nameOf IR.exCandC3.personal_info = "Ada Lovelace" from rfl,
        show pyLower "Ada Lovelace" = "ada lovelace" from by decide, hsim, hj]
      norm_num
    have hpm : IR._probabilistic_match sim IR.exStoreC3 IR.exEventC3.personal_info
        IR.exEventC3.identifiers = some ("cand-1", (0.8 : ℚ)) := by
      rw [show IR._probabilistic_match sim IR.exStoreC3 IR.exEventC3.personal_info
          IR.exEventC3.identifiers =
        (if IR.nameOf IR.exEventC3.personal_info = ""
            ∨ IR.idValuesOf IR.exEventC3.identifiers = ∅ then none
          else IR.bestOf sim (IR.nameOf IR.exEventC3.personal_info)
            (IR.idValuesOf IR.exEventC3.identifiers)
            (IR.elemMatchCandidates IR.exStoreC3 (IR.idValuesOf IR.exEventC3.identifiers)))
        from rfl, if_neg hguard, hcand,
        show IR.bestOf sim (IR.nameOf IR.exEventC3.personal_info)
            (IR.idValuesOf IR.exEventC3.identifiers) [IR.exCandC3]
          = some (IR.exCandC3.profile_id, IR.confidenceOf sim
              (IR.nameOf IR.exEventC3.personal_info)
              (IR.idValuesOf IR.exEventC3.identifiers) IR.exCandC3) from rfl, hconf]
      rfl
    simp only [IR.resolve, hd, hpm]
    rw [if_neg (by norm_num [IR.CONFIDENCE_AUTO_MERGE] : ¬(IR.CONFIDENCE_AUTO_MERGE ≤ (0.8 : ℚ)))]

/-- Witness for C3 at the concrete store and event, with the name-similarity
function constantly 1 (as `SequenceMatcher.ratio` is on equal strings). -/
theorem claim_C3_probabilistic_resolution_witness :
    ((∃ d ∈ IR.elemMatchCandidates IR.exStoreC3 (IR.idValuesOf IR.exEventC3.identifiers),
        d.profile_id = ("cand-1", IR.confidenceOf (fun _ _ => 1) "Ada Lovelace"
            (IR.idValuesOf IR.exEventC3.identifiers) IR.exCandC3).1
        ∧ IR.confidenceOf (fun _ _ => 1) (IR.nameOf IR.exEventC3.personal_info)
            (IR.idValuesOf IR.exEventC3.identifiers) d
          = ("cand-1", IR.confidenceOf (fun _ _ => 1) "Ada Lovelace"
              (IR.idValuesOf IR.exEventC3.identifiers) IR.exCandC3).2)
      ∧ ∀ d ∈ IR.elemMatchCandidates IR.exStoreC3 (IR.idValuesOf IR.exEventC3.identifiers),
          IR.confidenceOf (fun _ _ => 1) (IR.nameOf IR.exEventC3.personal_info)
              (IR.idValuesOf IR.exEventC3.identifiers) d
            ≤ ("cand-1", IR.confidenceOf (fun _ _ => 1) "Ada Lovelace"
                (IR.idValuesOf IR.exEventC3.identifiers) IR.exCandC3).2)
    ∧ (∀ d, IR.confidenceOf (fun _ _ => 1) (IR.nameOf IR.exEventC3.personal_info)
        (IR.idValuesOf IR.exEventC3.identifiers) d
        = 0.6 * (fun _ _ => (1 : ℚ)) (pyLower (IR.nameOf IR.exEventC3.personal_info))
            (pyLower (IR.nameOf d.personal_info))
          + 0.4 * (((IR.idValuesOf IR.exEventC3.identifiers ∩ IR.candIdsOf d).card : ℚ)
              / ((max (IR.idValuesOf IR.exEventC3.identifiers ∪ IR.candIdsOf d).card 1 : ℕ) : ℚ)))
    ∧ ((0.85 : ℚ) ≤ ("cand-1", IR.confidenceOf (fun _ _ => 1) "Ada Lovelace"
          (IR.idValuesOf IR.exEventC3.identifiers) IR.exCandC3).2 →
        IR.resolve (fun _ _ => 1) IR.exStoreC3 IR.exEventC3 "new-id" 0
          = ⟨("cand-1", IR.confidenceOf (fun _ _ => 1) "Ada Lovelace"
              (IR.idValuesOf IR.exEventC3.identifiers) IR.exCandC3).1, IR.exStoreC3, []⟩)
    ∧ (("cand-1", IR.confidenceOf (fun _ _ => 1) "Ada Lovelace"
          (IR.idValuesOf IR.exEventC3.identifiers) IR.exCandC3).2 < (0.85 : ℚ) →
        IR.resolve (fun _ _ => 1) IR.exStoreC3 IR.exEventC3 "new-id" 0 =
          ⟨"new-id", IR.exStoreC3 ++ [IR._create_profile IR.exEventC3 "new-id" 0],
            [.review_flag ("cand-1", IR.confidenceOf (fun _ _ => 1) "Ada Lovelace"
                (IR.idValuesOf IR.exEventC3.identifiers) IR.exCandC3).1
              ("cand-1", IR.confidenceOf (fun _ _ => 1) "Ada Lovelace"
                (IR.idValuesOf IR.exEventC3.identifiers) IR.exCandC3).2 IR.exEventC3 0,
              .create "new-id" 0]⟩)
    ∧ ((fun _ _ => (1 : ℚ)) "ada lovelace" "ada lovelace" = 1 →
        IR.resolve (fun _ _ => 1) IR.exStoreC3 IR.exEventC3 "new-id" 0 =
          ⟨"new-id", IR.exStoreC3 ++ [IR._create_profile IR.exEventC3 "new-id" 0],
            [.review_flag "cand-1" (0.8 : ℚ) IR.exEventC3 0, .create "new-id" 0]⟩) :=
  claim_C3_probabilistic_resolution (fun _ _ => 1) IR.exStoreC3 IR.exEventC3 "new-id" 0
    ("cand-1", IR.confidenceOf (fun _ _ => 1) "Ada Lovelace"
      (IR.idValuesOf IR.exEventC3.identifiers) IR.exCandC3) (by decide) rfl

/-- Witness for the amended C5 on the empty state: all six channels trigger an
update (no entries exist) and the empty secondary record stays absent. -/
theorem claim_C5_merge_consent_updates_witness :
    ∃ st', CM.merge_consent ⟨[], []⟩ "p" "s" 0 = .ok st'
      ∧ st'.audit = ([] : List CM.AuditEntry)
          ++ (CM.CHANNELS.filter
                (CM.mergeTrigger (CM.get_consent ⟨[], []⟩ "p" 0) (CM.get_consent ⟨[], []⟩ "s" 0))).map
              (CM.mergeAuditEntry "p" (CM.get_consent ⟨[], []⟩ "p" 0)
                (CM.get_consent ⟨[], []⟩ "s" 0) 0)
      ∧ (∀ en ∈ st'.audit.drop ([] : List CM.AuditEntry).length,
          en.student_id = "p" ∧ en.channel ∈ CM.CHANNELS
          ∧ en.legal_basis = "legitimate_interest" ∧ en.source = "api")
      ∧ CM.findRec st'.consents "s" = none :=
  claim_C5_merge_consent_updates ⟨[], []⟩ "p" "s" 0 (by decide) (by decide)

/-- Claim C8: on every profile write the stored engagement score equals
`round(0.55 * recency + 0.45 * frequency, 2)` with
`recency = 100 * exp(-0.693 * days_ago / 14)` (days since the just-recorded
last interaction — the event timestamp, or `now` when absent, clamped at 0)
and `frequency = min(100, total * 2.5)` with `total` the updated interaction
count; the segments field then contains exactly the segment names whose
half-open range `[low, high)` contains the engagement score; and the worked
example (total 4, last interaction 14 days ago) yields `32.00` with segment
`at_risk`. -/
theorem claim_C8_engagement_scoring :
    (∀ (p : PB.Profile) (e : Event) (now : ℚ) (v : ℕ),
        (PB.buildUpdated p e now v).engagement_score =
          some (PB.pyRound2 (PB.RECENCY_WEIGHT *
              (100 * Real.exp (-0.693 *
                max (((now : ℝ) - ((e.timestamp.getD now : ℚ) : ℝ)) / 86400) 0 /
                  PB.RECENCY_HALF_LIFE_DAYS))
            + PB.FREQUENCY_WEIGHT * min 100
                ((((p.interaction_summary.getD PB.emptySummary).total_interactions + 1 : ℕ) : ℝ)
                  * 2.5))))
    ∧ (∀ (q : PB.Profile) (nm : String),
        nm ∈ (PB._update_segments q).segments ↔
          ∃ lo hi, (nm, lo, hi) ∈ PB.SEGMENT_THRESHOLDS ∧
            lo ≤ q.engagement_score.getD 0 ∧ q.engagement_score.getD 0 < hi)
    ∧ PB.pyRound2 (0.55 * (100 * Real.exp (-0.693 * 14 / 14)) + 0.45 * min 100 ((4 : ℝ) * 2.5))
        = 32
    ∧ (PB._update_segments PB.exProfileScore32).segments = ["at_risk"] := by
  refine ⟨?_, PB.segments_mem_iff, ?_, ?_⟩
  · intro p e now v
    have hub : (PB.buildUpdated p e now v).engagement_score
        = (PB._update_scores
            (PB._update_interaction_summary (PB._apply_contact_info p e) e now)
            e now).engagement_score := rfl
    rw [hub, PB.scores_engagement _ e now (e.timestamp.getD now)
        (PB.summary_last_at (PB._apply_contact_info p e) e now),
      PB.summary_total_incr, PB.contact_summary_unchanged]
  · obtain ⟨hl, hu⟩ := PB.exp_neg693_bounds
    have hx : (-0.693 : ℝ) * 14 / 14 = -(0.693 : ℝ) := by norm_num
    have hmin : min (100 : ℝ) ((4 : ℝ) * 2.5) = 10 := by norm_num
    rw [hx, hmin, PB.pyRound2_eq_down _ 3200 (by push_cast; linarith) (by push_cast; linarith)]
    norm_num
  · unfold PB._update_segments
    norm_num [PB.exProfileScore32, PB.SEGMENT_THRESHOLDS, List.filter_cons, List.filter_nil]

/-- Witness for C8: the score-32 profile is placed in the at_risk segment,
whose range [15, 40) contains 32. -/
theorem claim_C8_engagement_scoring_witness :
    "at_risk" ∈ (PB._update_segments PB.exProfileScore32).segments :=
  (claim_C8_engagement_scoring.2.1 PB.exProfileScore32 "at_risk").mpr
    ⟨15, 40,
      List.mem_cons_of_mem _ (List.mem_cons_of_mem _ (List.mem_cons_self _ _)),
      by norm_num [PB.exProfileScore32],
      by norm_num [PB.exProfileScore32]⟩

end CDP
